import Mathlib

/-!
# clam-catalog: product repository and admin gate

A shallow embedding of `internal/catalog/store.go`, `internal/catalog/handlers.go`
and `internal/auth/jwt.go`, followed by theorems about the statements the
repository builds and about the decisions the handlers take.

Conventions of the embedding:
* a Go pointer `*T` is `Option T` (`none` is `nil`);
* a Go slice `[]string` is `Option (List String)` (`none` is the nil slice), so that
  the nil slice and the empty non-nil slice stay distinct;
* a Go pair `(*T, error)` is `Option T × Option String`, an error being carried as
  its message;
* `fmt.Sprintf("... $%d", n)` is the literal prefix followed by `toString n`;
* calls into `database/sql` take the connection as a function from the statement
  text and its arguments to what the driver hands back.
-/

namespace ClamCatalog

/-! ## Values -/

/-- Go `float64`, carried as its IEEE-754 bit pattern; the repository never computes on it. -/
structure Float64 where
  bits : Nat
deriving DecidableEq, Repr

/-- Go `[]string`; `none` is the nil slice. -/
abbrev StringSlice := Option (List String)

/-- Go `time.Time`, as nanoseconds since the epoch. -/
abbrev Time := Int

/-- A value bound to a statement placeholder, as the driver receives it. -/
inductive SqlArg where
  | null
  | str (s : String)
  | int (i : Int)
  | float (f : Float64)
  | strArray (xs : List String)
deriving DecidableEq, Repr

/-- Embedding of `pq.Array(xs)` for a `[]string`: its `Value()` is SQL NULL for the nil slice and the
array of its elements otherwise. -/
def pqArray : StringSlice → SqlArg
  | none => SqlArg.null
  | some xs => SqlArg.strArray xs

/-! ## models.go -/

/-- Embedding of `Product` of models.go. -/
structure Product where
  ID : String
  Name : String
  Description : String
  Price : Float64
  PrimaryImageURL : String
  Images : StringSlice
  Category : String
  SKU : String
  StockCount : Int
  Tags : StringSlice
  Rating : Option Float64
  ReviewCount : Int
  CreatedAt : Time
  UpdatedAt : Time
deriving DecidableEq, Repr

/-- Embedding of `CreateProductRequest` of models.go. -/
structure CreateProductRequest where
  Name : String
  Description : String
  Price : Float64
  PrimaryImageURL : String
  Images : StringSlice
  Category : String
  SKU : String
  StockCount : Int
  Tags : StringSlice
deriving DecidableEq, Repr

/-- Embedding of `UpdateProductRequest` of models.go: every field is a pointer. -/
structure UpdateProductRequest where
  Name : Option String
  Description : Option String
  Price : Option Float64
  PrimaryImageURL : Option String
  Images : Option StringSlice
  Category : Option String
  SKU : Option String
  StockCount : Option Int
  Tags : Option StringSlice
deriving DecidableEq, Repr

/-! ## store.go: statement construction -/

/-- The three locals `query`, `args`, `argCount` of the statement builders. -/
structure Stmt where
  query : String
  args : List SqlArg
  argCount : Nat
deriving DecidableEq, Repr

/-- The block `argCount++; query += fmt.Sprintf(pre + "%d", argCount); args = append(args, v)`. -/
def bindParam (st : Stmt) (pre : String) (v : SqlArg) : Stmt :=
  let argCount := st.argCount + 1
  { query := st.query ++ (pre ++ toString argCount)
    args := st.args ++ [v]
    argCount := argCount }

/-- The guarded block `if p != nil { ...bindParam... }`. -/
def optParam (st : Stmt) (pre : String) : Option SqlArg → Stmt
  | none => st
  | some v => bindParam st pre v

/-- The text appended after the WHERE clause of `UpdateProduct`. -/
def updateReturning : String :=
  " RETURNING id, name, description, price, primary_image_url, images,\n\t                     category, sku, stock_count, tags, rating, review_count,\n\t                     created_at, updated_at"

/-- The statement `UpdateProduct` builds (store.go lines 165-221): text, arguments and
the final value of `argCount`. -/
def updateStmt (id : String) (req : UpdateProductRequest) : Stmt :=
  let st : Stmt := { query := "UPDATE catalog.products SET updated_at = now()", args := [], argCount := 0 }
  let st := optParam st ", name = $" (req.Name.map SqlArg.str)
  let st := optParam st ", description = $" (req.Description.map SqlArg.str)
  let st := optParam st ", price = $" (req.Price.map SqlArg.float)
  let st := optParam st ", primary_image_url = $" (req.PrimaryImageURL.map SqlArg.str)
  let st := optParam st ", images = $" (req.Images.map pqArray)
  let st := optParam st ", category = $" (req.Category.map SqlArg.str)
  let st := optParam st ", sku = $" (req.SKU.map SqlArg.str)
  let st := optParam st ", stock_count = $" (req.StockCount.map SqlArg.int)
  let st := optParam st ", tags = $" (req.Tags.map pqArray)
  let st := bindParam st " WHERE id = $" (SqlArg.str id)
  { st with query := st.query ++ updateReturning }

/-! ## store.go: the connection and result decoding -/

/-- Embedding of `sql.NullFloat64`. -/
structure NullFloat64 where
  Float64 : Float64
  Valid : Bool
deriving DecidableEq, Repr

/-- The destinations of `Scan` after a successful scan of the fourteen selected columns:
scalar columns land in the fields of `p`, the two array columns in `pq.StringArray`
locals (nil for SQL NULL) and the rating in a `sql.NullFloat64`. -/
structure ScannedRow where
  id : String
  name : String
  description : String
  price : Float64
  primary_image_url : String
  images : StringSlice
  category : String
  sku : String
  stock_count : Int
  tags : StringSlice
  rating : NullFloat64
  review_count : Int
  created_at : Time
  updated_at : Time
deriving DecidableEq, Repr

/-- The outcome of `QueryRowContext(...).Scan(...)`: `sql.ErrNoRows`, any other error, or
the scanned destinations. -/
inductive RowResult where
  | noRows
  | failed (err : String)
  | row (r : ScannedRow)
deriving DecidableEq, Repr

/-- The outcome of `ExecContext`: an error, or a result whose `RowsAffected()` is an error
or a count. -/
inductive ExecResult where
  | failed (err : String)
  | done (rowsAffected : Except String Int)

/-- The outcome of `QueryContext` and of iterating its rows: an error from the query, or
the scan outcome of each row `rows.Next()` yields, in order, with the final `rows.Err()`. -/
inductive RowsResult where
  | failed (err : String)
  | rows (scans : List (Except String ScannedRow)) (final : Option String)

/-- The connection `s.db`, as far as the store uses it. `queryCount` is `QueryRowContext`
followed by a `Scan` into a single `int`. -/
structure DB where
  queryRow : String → List SqlArg → RowResult
  queryCount : String → List SqlArg → Except String Int
  queryRows : String → List SqlArg → RowsResult
  exec : String → List SqlArg → ExecResult

/-- The assignments that follow a successful `Scan` in every store method:
`p.Images = []string(images)`, `p.Tags = []string(tags)` and the guarded
`p.Rating = &rating.Float64`. -/
def productOfRow (r : ScannedRow) : Product :=
  { ID := r.id, Name := r.name, Description := r.description, Price := r.price,
    PrimaryImageURL := r.primary_image_url, Images := r.images, Category := r.category,
    SKU := r.sku, StockCount := r.stock_count, Tags := r.tags,
    Rating := if r.rating.Valid then some r.rating.Float64 else none,
    ReviewCount := r.review_count, CreatedAt := r.created_at, UpdatedAt := r.updated_at }

/-- What `UpdateProduct` returns once `QueryRowContext(...).Scan(...)` has come back
(store.go lines 233-246). -/
def updateResult : RowResult → Option Product × Option String
  | RowResult.noRows => (none, none)
  | RowResult.failed err => (none, some ("UpdateProduct: " ++ err))
  | RowResult.row r => (some (productOfRow r), none)

/-- Embedding of `Store.UpdateProduct` (store.go lines 163-247): build the statement, run it, decode. -/
def Store.UpdateProduct (db : DB) (id : String) (req : UpdateProductRequest) :
    Option Product × Option String :=
  let st := updateStmt id req
  updateResult (db.queryRow st.query st.args)

/-! ## store.go: the other statements -/

/-- The raw string that opens the query of `ListProducts`. -/
def listSelect : String :=
  "\n\t\tSELECT id, name, description, price, primary_image_url,\n\t\t       COALESCE(images, '\x7b\x7d'::text[]) as images,\n\t\t       category, sku, stock_count,\n\t\t       COALESCE(tags, '\x7b\x7d'::text[]) as tags,\n\t\t       rating, review_count, created_at, updated_at\n\t\tFROM catalog.products\n\t"

/-- The statement `ListProducts` builds (store.go lines 24-47). Go `int` arguments are
carried as integers; the builder does no arithmetic on them. -/
def listStmt (limit offset : Int) (category : String) : Stmt :=
  let st : Stmt := { query := listSelect, args := [], argCount := 0 }
  let st := if category ≠ "" then bindParam st " WHERE category = $" (SqlArg.str category) else st
  let st := { st with query := st.query ++ " ORDER BY created_at DESC" }
  let st := bindParam st " LIMIT $" (SqlArg.int limit)
  let st := bindParam st " OFFSET $" (SqlArg.int offset)
  st

/-- The loop `for rows.Next() { ...Scan...; products = append(products, p) }`: the first
failing scan aborts it. -/
def scanAll : List (Except String ScannedRow) → List Product → Except String (List Product)
  | [], products => Except.ok products
  | Except.error err :: _, _ => Except.error err
  | Except.ok r :: rest, products => scanAll rest (products ++ [productOfRow r])

/-- Embedding of `Store.ListProducts` (store.go lines 22-80). The result slice is `none` for Go `nil`. -/
def Store.ListProducts (db : DB) (limit offset : Int) (category : String) :
    Option (List Product) × Option String :=
  let st := listStmt limit offset category
  match db.queryRows st.query st.args with
  | RowsResult.failed err => (none, some ("ListProducts query: " ++ err))
  | RowsResult.rows scans final =>
    match scanAll scans [] with
    | Except.error err => (none, some ("ListProducts scan: " ++ err))
    | Except.ok products => (some products, final)

/-- The query of `GetProduct`. -/
def getQuery : String :=
  "\n\t\tSELECT id, name, description, price, primary_image_url,\n\t\t       COALESCE(images, '\x7b\x7d'::text[]) as images,\n\t\t       category, sku, stock_count,\n\t\t       COALESCE(tags, '\x7b\x7d'::text[]) as tags,\n\t\t       rating, review_count, created_at, updated_at\n\t\tFROM catalog.products\n\t\tWHERE id = $1\n\t"

/-- Embedding of `Store.GetProduct` (store.go lines 82-118). -/
def Store.GetProduct (db : DB) (id : String) : Option Product × Option String :=
  match db.queryRow getQuery [SqlArg.str id] with
  | RowResult.noRows => (none, none)
  | RowResult.failed err => (none, some ("GetProduct query: " ++ err))
  | RowResult.row r => (some (productOfRow r), none)

/-- The query of `CreateProduct`. -/
def createQuery : String :=
  "\n\t\tINSERT INTO catalog.products (\n\t\t\tid, name, description, price, primary_image_url, images,\n\t\t\tcategory, sku, stock_count, tags\n\t\t) VALUES (\n\t\t\t$1, $2, $3, $4, $5, $6, $7, $8, $9, $10\n\t\t)\n\t\tRETURNING id, name, description, price, primary_image_url, images,\n\t\t          category, sku, stock_count, tags, rating, review_count,\n\t\t          created_at, updated_at\n\t"

/-- The message of `sql.ErrNoRows`. -/
def ErrNoRows : String := "sql: no rows in result set"

/-- Embedding of `Store.CreateProduct` (store.go lines 120-160); `id` is the value of
`uuid.New().String()`. -/
def Store.CreateProduct (db : DB) (id : String) (req : CreateProductRequest) :
    Option Product × Option String :=
  match db.queryRow createQuery
      [SqlArg.str id, SqlArg.str req.Name, SqlArg.str req.Description, SqlArg.float req.Price,
       SqlArg.str req.PrimaryImageURL, pqArray req.Images, SqlArg.str req.Category,
       SqlArg.str req.SKU, SqlArg.int req.StockCount, pqArray req.Tags] with
  | RowResult.noRows => (none, some ("CreateProduct: " ++ ErrNoRows))
  | RowResult.failed err => (none, some ("CreateProduct: " ++ err))
  | RowResult.row r => (some (productOfRow r), none)

/-- Embedding of `Store.DeleteProduct` (store.go lines 249-267): the returned `error`, `none` for nil. -/
def Store.DeleteProduct (db : DB) (id : String) : Option String :=
  match db.exec "DELETE FROM catalog.products WHERE id = $1" [SqlArg.str id] with
  | ExecResult.failed err => some ("DeleteProduct: " ++ err)
  | ExecResult.done (Except.error err) => some ("DeleteProduct rows affected: " ++ err)
  | ExecResult.done (Except.ok rows) => if rows = 0 then some "product not found" else none

/-- The statement `CountProducts` builds (store.go lines 271-277): text and arguments. -/
def countStmt (category : String) : String × List SqlArg :=
  let query := "SELECT COUNT(*) FROM catalog.products"
  let args : List SqlArg := []
  if category ≠ "" then (query ++ " WHERE category = $1", args ++ [SqlArg.str category])
  else (query, args)

/-- Embedding of `Store.CountProducts` (store.go lines 269-286). -/
def Store.CountProducts (db : DB) (category : String) : Int × Option String :=
  let st := countStmt category
  match db.queryCount st.1 st.2 with
  | Except.error err => (0, some ("CountProducts: " ++ err))
  | Except.ok count => (count, none)

/-! ## jwt.go -/

/-- Embedding of `Claims` of jwt.go: the role set. The embedded registered claims are checked inside
the JWT library and never read by this repository. -/
structure Claims where
  Roles : List String
deriving DecidableEq, Repr

/-- The token as the key function passed to `jwt.ParseWithClaims` sees it: whether
`t.Method` is a `*jwt.SigningMethodHMAC`, and `t.Header["alg"]` formatted with `%v`. -/
structure UnverifiedToken where
  isHMAC : Bool
  alg : String
deriving DecidableEq, Repr

/-- The `*jwt.Token` that `jwt.ParseWithClaims` returns without error: the outcome of the
assertion `tok.Claims.(*Claims)` (`none` when it fails) and the `Valid` flag. -/
structure ParsedToken where
  claims : Option Claims
  Valid : Bool
deriving DecidableEq, Repr

/-- What `ParseToken` reads from its surroundings: the environment variable `JWT_SECRET`
and the JWT library's `ParseWithClaims`, which is handed the token string and the key
function. -/
structure AuthEnv where
  JWT_SECRET : String
  parseWithClaims : String → (UnverifiedToken → Except String String) → Except String ParsedToken

/-- Embedding of `ParseToken` of jwt.go. It returns either claims or an error, never both and never
neither, hence `Except`. -/
def ParseToken (env : AuthEnv) (tokenStr : String) : Except String Claims :=
  let secret := env.JWT_SECRET
  if secret = "" then Except.error "JWT_SECRET not set"
  else
    match env.parseWithClaims tokenStr (fun t =>
        if !t.isHMAC then Except.error ("unexpected signing method: " ++ t.alg)
        else Except.ok secret) with
    | Except.error err => Except.error ("parse token failed: " ++ err)
    | Except.ok tok =>
      match tok.claims with
      | none => Except.error "invalid token"
      | some claims => if !tok.Valid then Except.error "invalid token" else Except.ok claims

/-- An HTTP request, as far as the handlers read it: the header (canonical key, first
value), the route variables of `mux.Vars`, and the parsed query string of `r.URL.Query()`
as its key-value pairs in order. -/
structure Request where
  Header : List (String × String)
  Vars : List (String × String)
  Query : List (String × String) := []
deriving DecidableEq, Repr

/-- Embedding of `r.Header.Get(key)`: the first value of the key, or `""`. -/
def Request.HeaderGet (r : Request) (key : String) : String :=
  (r.Header.lookup key).getD ""

/-- Embedding of `mux.Vars(r)[key]`: the value of the route variable, or `""`. -/
def Request.Var (r : Request) (key : String) : String :=
  (r.Vars.lookup key).getD ""

/-- Embedding of `strings.Cut` on the first occurrence of a one-character separator, over the
characters of the string. -/
def cutAt (sep : Char) : List Char → Option (List Char × List Char)
  | [] => none
  | c :: cs =>
    if c = sep then some ([], cs)
    else (cutAt sep cs).map (fun p => (c :: p.1, p.2))

/-- Embedding of `strings.SplitN(s, " ", 2)`: the text before the first space and the text after it,
or the string itself when it has no space. -/
def splitN2 (s : String) : List String :=
  match cutAt ' ' s.data with
  | none => [s]
  | some (before, after) => [String.mk before, String.mk after]

/-- Embedding of `strings.EqualFold`, as it acts when one side is `"Bearer"`: none of the letters
b, e, a, r has a case-folding partner outside ASCII, so Unicode simple folding and ASCII
case-insensitive comparison coincide at the one call site of this repository. -/
def EqualFold (s t : String) : Bool :=
  s.data.map Char.toLower == t.data.map Char.toLower

/-- Embedding of `GetBearerToken` of jwt.go. -/
def GetBearerToken (r : Request) : String :=
  let h := r.HeaderGet "Authorization"
  if h = "" then ""
  else
    let parts := splitN2 h
    match parts with
    | [scheme, credential] => if EqualFold scheme "Bearer" then credential else ""
    | _ => ""

/-- Embedding of `HasRole` of jwt.go. -/
def HasRole : List String → String → Bool
  | [], _ => false
  | r :: userRoles, required => if r = required then true else HasRole userRoles required

/-! ## handlers.go -/

/-- Embedding of `ProductListResponse` of models.go. -/
structure ProductListResponse where
  Products : Option (List Product)
  Total : Int
  Limit : Int
  Offset : Int
deriving DecidableEq, Repr

/-- One write to the response body: a line of text, or a value handed to
`json.NewEncoder(w).Encode`. -/
inductive Chunk where
  | text (s : String)
  | product (p : Product)
  | productList (resp : ProductListResponse)
deriving DecidableEq, Repr

/-- The `http.ResponseWriter`: the header map, the status code once it has been written,
and the body written so far. -/
structure ResponseWriter where
  header : List (String × String)
  status : Option Nat
  body : List Chunk
deriving DecidableEq, Repr

/-- Embedding of `w.Header().Del(key)`. -/
def ResponseWriter.HeaderDel (w : ResponseWriter) (key : String) : ResponseWriter :=
  { w with header := w.header.filter (fun kv => kv.1 ≠ key) }

/-- Embedding of `w.Header().Set(key, value)`. -/
def ResponseWriter.HeaderSet (w : ResponseWriter) (key value : String) : ResponseWriter :=
  { w with header := w.header.filter (fun kv => kv.1 ≠ key) ++ [(key, value)] }

/-- Embedding of `w.WriteHeader(code)`: a second call is ignored. -/
def ResponseWriter.WriteHeader (w : ResponseWriter) (code : Nat) : ResponseWriter :=
  match w.status with
  | none => { w with status := some code }
  | some _ => w

/-- Embedding of `w.Write`: writes the status 200 first when none has been written. -/
def ResponseWriter.Write (w : ResponseWriter) (c : Chunk) : ResponseWriter :=
  let w := w.WriteHeader 200
  { w with body := w.body ++ [c] }

/-- Embedding of `http.Error(w, msg, code)` of net/http: it drops `Content-Length`, sets the plain-text
content type and `nosniff`, writes the status and the message followed by a newline. -/
def httpError (w : ResponseWriter) (msg : String) (code : Nat) : ResponseWriter :=
  let w := w.HeaderDel "Content-Length"
  let w := w.HeaderSet "Content-Type" "text/plain; charset=utf-8"
  let w := w.HeaderSet "X-Content-Type-Options" "nosniff"
  let w := w.WriteHeader code
  w.Write (Chunk.text (msg ++ "\n"))

/-- A line handed to the levelled logger. -/
inductive LogLine where
  | debug (msg : String)
  | error (msg : String)
deriving DecidableEq, Repr

/-- What a handler acts on: the response writer and the server log. -/
structure Conn where
  w : ResponseWriter
  log : List LogLine
deriving DecidableEq, Repr

/-- Embedding of `logger.Debugf` with the message already formatted. -/
def Conn.Debugf (c : Conn) (msg : String) : Conn :=
  { c with log := c.log ++ [LogLine.debug msg] }

/-- Embedding of `logger.Errorf` with the message already formatted. -/
def Conn.Errorf (c : Conn) (msg : String) : Conn :=
  { c with log := c.log ++ [LogLine.error msg] }

/-- Embedding of `http.HandlerFunc`: the effect of serving one request on the connection. -/
abbrev HandlerFunc := Conn → Request → Conn

/-- Embedding of `Handler.GetProduct` (handlers.go lines 61-78). -/
def Handler.GetProduct (db : DB) : HandlerFunc := fun c r =>
  let id := r.Var "id"
  match Store.GetProduct db id with
  | (_, some err) =>
    let c := c.Errorf ("GetProduct: " ++ err)
    { c with w := httpError c.w "internal error" 500 }
  | (none, none) =>
    { c with w := httpError c.w "product not found" 404 }
  | (some product, none) =>
    let w := c.w.HeaderSet "Content-Type" "application/json"
    { c with w := w.Write (Chunk.product product) }

/-- Embedding of `Handler.DeleteProduct` (handlers.go lines 131-143). -/
def Handler.DeleteProduct (db : DB) : HandlerFunc := fun c r =>
  let id := r.Var "id"
  match Store.DeleteProduct db id with
  | some err =>
    let c := c.Errorf ("DeleteProduct: " ++ err)
    { c with w := httpError c.w "failed to delete product" 500 }
  | none =>
    { c with w := c.w.WriteHeader 204 }

/-- Embedding of `r.URL.Query().Get(key)`: the first value of the key, or `""`. -/
def Request.QueryGet (r : Request) (key : String) : String :=
  (r.Query.lookup key).getD ""

/-- The two errors of `strconv`: `ErrSyntax` and `ErrRange`. -/
inductive NumError where
  | ErrSyntax
  | ErrRange
deriving DecidableEq, Repr

/-- The digit test of `strconv` in base 10: the value of an ASCII decimal digit, `none`
for any other character (a letter has value 10 or more, which base 10 rejects like any
other byte). -/
def digitValue (ch : Char) : Option Nat :=
  if '0' ≤ ch ∧ ch ≤ '9' then some (ch.toNat - '0'.toNat) else none

/-- The loop `n = n*10 + int(ch)` of the fast path of `strconv.Atoi`, failing on the first
non-digit. The fast path runs on fewer than 19 bytes, so the Go `int` cannot overflow. -/
def parseDigits : List Char → Nat → Option Nat
  | [], n => some n
  | ch :: rest, n =>
    match digitValue ch with
    | none => none
    | some d => parseDigits rest (n * 10 + d)

/-- The largest Go `int` on a 64-bit platform. -/
def maxInt : Int := 9223372036854775807

/-- The smallest Go `int` on a 64-bit platform. -/
def minInt : Int := -9223372036854775808

/-- The largest `uint64`. -/
def maxUint64 : Nat := 18446744073709551615

/-- The loop of `strconv.ParseUint(s, 10, 64)` over the bytes, `n` being a `uint64`: a
non-digit is a syntax error with value 0; when `n*10` or `n*10 + d` overflows, the loop
returns the largest `uint64` with a range error at once, without reading what follows. -/
def parseUintLoop : List Char → Nat → Nat × Option NumError
  | [], n => (n, none)
  | ch :: rest, n =>
    match digitValue ch with
    | none => (0, some NumError.ErrSyntax)
    | some d =>
      if n ≥ maxUint64 / 10 + 1 then (maxUint64, some NumError.ErrRange)
      else
        let n10 := (n * 10) % 18446744073709551616
        let n1 := (n10 + d) % 18446744073709551616
        if n1 < n10 ∨ n1 > maxUint64 then (maxUint64, some NumError.ErrRange)
        else parseUintLoop rest n1

/-- Embedding of `strconv.ParseUint(s, 10, 64)`: the empty string is a syntax error. -/
def ParseUint (s : List Char) : Nat × Option NumError :=
  match s with
  | [] => (0, some NumError.ErrSyntax)
  | ch :: rest => parseUintLoop (ch :: rest) 0

/-- The second half of `strconv.ParseInt(s, 10, 0)` on a 64-bit platform, from the
result of `ParseUint` on: a syntax error returns 0; a magnitude beyond the `int64` range,
a range error of `ParseUint` included, returns the nearest bound with a range error;
otherwise the signed value. -/
def signedOfUint (neg : Bool) (parsed : Nat × Option NumError) : Int × Option NumError :=
  if parsed.2 = some NumError.ErrSyntax then (0, some NumError.ErrSyntax)
  else if neg = false ∧ parsed.1 ≥ 9223372036854775808 then
    (9223372036854775807, some NumError.ErrRange)
  else if neg = true ∧ parsed.1 > 9223372036854775808 then
    (-9223372036854775808, some NumError.ErrRange)
  else (if neg then -(parsed.1 : Int) else (parsed.1 : Int), none)

/-- Embedding of `strconv.ParseInt(s, 10, 0)` on a 64-bit platform: the empty string is a
syntax error; the leading sign is picked off and the rest goes through `ParseUint`. -/
def ParseInt (s : List Char) : Int × Option NumError :=
  match s with
  | [] => (0, some NumError.ErrSyntax)
  | ch :: rest =>
    signedOfUint (decide (ch = '-'))
      (ParseUint (if ch = '+' ∨ ch = '-' then rest else ch :: rest))

/-- The fast path of `strconv.Atoi` after the sign: at least one byte, digits only. -/
def fastDigits (neg : Bool) (digits : List Char) : Int × Option NumError :=
  match digits with
  | [] => (0, some NumError.ErrSyntax)
  | d :: ds =>
    match parseDigits (d :: ds) 0 with
    | none => (0, some NumError.ErrSyntax)
    | some n => (if neg then -(n : Int) else (n : Int), none)

/-- The fast path of `strconv.Atoi`, taken for 1 to 18 bytes: an optional sign, then
digits only, at least one. -/
def atoiFast (s : List Char) : Int × Option NumError :=
  match s with
  | [] => (0, some NumError.ErrSyntax)
  | ch :: rest =>
    fastDigits (decide (ch = '-')) (if ch = '-' ∨ ch = '+' then rest else ch :: rest)

/-- Embedding of `strconv.Atoi` on a 64-bit platform: the fast path when the string has
between 1 and 18 bytes, `ParseInt(s, 10, 0)` otherwise. -/
def Atoi (s : String) : Int × Option NumError :=
  let sLen := s.utf8ByteSize
  if 0 < sLen ∧ sLen < 19 then atoiFast s.data else ParseInt s.data

/-- The natural number a string of decimal digits denotes, unbounded: `none` for the empty
string and for a string with any other character. -/
def unsignedValue (digits : List Char) : Option Nat :=
  match digits with
  | [] => none
  | d :: ds => parseDigits (d :: ds) 0

/-- The integer a decimal numeral denotes, unbounded: an optional sign followed by at
least one ASCII digit; `none` for every other string. -/
def numeralValue (s : List Char) : Option Int :=
  match s with
  | [] => none
  | ch :: rest =>
    if ch = '-' then
      match unsignedValue rest with
      | none => none
      | some n => some (-(n : Int))
    else if ch = '+' then
      match unsignedValue rest with
      | none => none
      | some n => some (n : Int)
    else
      match unsignedValue (ch :: rest) with
      | none => none
      | some n => some (n : Int)

/-- What parsing a numeral that denotes `v` into a Go `int` gives: `v` itself when it fits,
the nearest bound with a range error when it does not. -/
def clampInt (v : Int) : Int × Option NumError :=
  if v > maxInt then (maxInt, some NumError.ErrRange)
  else if v < minInt then (minInt, some NumError.ErrRange)
  else (v, none)

/-- The limit `Handler.ListProducts` uses (handlers.go lines 26-29): the value of `Atoi`,
its error dropped, replaced by 20 when it is not positive or exceeds 100. -/
def effectiveLimit (raw : String) : Int :=
  let limit := (Atoi raw).1
  if limit ≤ 0 ∨ limit > 100 then 20 else limit

/-- The offset `Handler.ListProducts` uses (handlers.go lines 30-33): the value of `Atoi`,
its error dropped, replaced by 0 when it is negative. -/
def effectiveOffset (raw : String) : Int :=
  let offset := (Atoi raw).1
  if offset < 0 then 0 else offset

/-- Go `len(products)` for a slice of products, 0 for nil. -/
def lenProducts : Option (List Product) → Int
  | none => 0
  | some products => (products.length : Int)

/-- Embedding of `Handler.ListProducts` (handlers.go lines 24-59). -/
def Handler.ListProducts (db : DB) : HandlerFunc := fun c r =>
  let limit := effectiveLimit (r.QueryGet "limit")
  let offset := effectiveOffset (r.QueryGet "offset")
  let category := r.QueryGet "category"
  match Store.ListProducts db limit offset category with
  | (_, some err) =>
    let c := c.Errorf ("ListProducts: " ++ err)
    { c with w := httpError c.w "internal error" 500 }
  | (products, none) =>
    match Store.CountProducts db category with
    | (_, some err) =>
      let c := c.Errorf ("CountProducts: " ++ err)
      let resp : ProductListResponse :=
        { Products := products, Total := lenProducts products, Limit := limit, Offset := offset }
      let w := c.w.HeaderSet "Content-Type" "application/json"
      { c with w := w.Write (Chunk.productList resp) }
    | (total, none) =>
      let resp : ProductListResponse :=
        { Products := products, Total := total, Limit := limit, Offset := offset }
      let w := c.w.HeaderSet "Content-Type" "application/json"
      { c with w := w.Write (Chunk.productList resp) }

/-- Embedding of `RequireAdmin` (handlers.go lines 145-171). -/
def RequireAdmin (env : AuthEnv) (next : HandlerFunc) : HandlerFunc := fun c r =>
  let tokenStr := GetBearerToken r
  if tokenStr = "" then
    let c := c.Debugf "RequireAdmin: no bearer token provided"
    { c with w := httpError c.w "unauthorized" 401 }
  else
    match ParseToken env tokenStr with
    | Except.error err =>
      let c := c.Debugf ("RequireAdmin: JWT parse error: " ++ err)
      { c with w := httpError c.w "unauthorized" 401 }
    | Except.ok claims =>
      if !HasRole claims.Roles "admin" then
        let c := c.Debugf "RequireAdmin: user lacks admin role"
        { c with w := httpError c.w "forbidden - admin role required" 403 }
      else
        next c r

/-! ## The partial update, field by field -/

/-- The nine optional fields in the order `UpdateProduct` tests them, each with its column
name and, when the pointer is non-nil, the value it binds. -/
def updateFields (req : UpdateProductRequest) : List (String × Option SqlArg) :=
  [ ("name", req.Name.map SqlArg.str),
    ("description", req.Description.map SqlArg.str),
    ("price", req.Price.map SqlArg.float),
    ("primary_image_url", req.PrimaryImageURL.map SqlArg.str),
    ("images", req.Images.map pqArray),
    ("category", req.Category.map SqlArg.str),
    ("sku", req.SKU.map SqlArg.str),
    ("stock_count", req.StockCount.map SqlArg.int),
    ("tags", req.Tags.map pqArray) ]

/-- The fields that are present, in the same order: column name and bound value. -/
def presentOf : List (String × Option SqlArg) → List (String × SqlArg)
  | [] => []
  | (_, none) :: fs => presentOf fs
  | (c, some v) :: fs => (c, v) :: presentOf fs

/-- The present fields of a request. -/
def presentFields (req : UpdateProductRequest) : List (String × SqlArg) :=
  presentOf (updateFields req)

/-- The assignments `, c = $k` for the given columns, numbered consecutively from
`start + 1`. -/
def renderAssignments (start : Nat) : List String → String
  | [] => ""
  | c :: cs => ", " ++ c ++ " = $" ++ toString (start + 1) ++ renderAssignments (start + 1) cs

/-- Running the guarded blocks for a list of fields, one after the other. -/
def applyFields (st : Stmt) : List (String × Option SqlArg) → Stmt
  | [] => st
  | (c, v) :: fs => applyFields (optParam st (", " ++ c ++ " = $") v) fs

/-- The statement text of the partial update as the specification words it: the base
clause, one numbered assignment per present column, the identity predicate with the
next ordinal, and the RETURNING list. -/
def updateText (cols : List String) : String :=
  "UPDATE catalog.products SET updated_at = now()" ++ renderAssignments 0 cols
    ++ " WHERE id = $" ++ toString (cols.length + 1) ++ updateReturning

/-- The request in which no field is present. -/
def emptyUpdate : UpdateProductRequest :=
  { Name := none, Description := none, Price := none, PrimaryImageURL := none, Images := none,
    Category := none, SKU := none, StockCount := none, Tags := none }

/-- The updatable columns, in the order `UpdateProduct` tests their fields. -/
def updatableColumns : List String :=
  ["name", "description", "price", "primary_image_url", "images", "category", "sku",
   "stock_count", "tags"]

/-! ## A reference relational store

The semantics of the statements the repository issues for listing, counting and lookup,
over a table held as a list of rows. It stands for the PostgreSQL server behind `s.db`:
statements are recognised by their text, `WHERE category = $1` keeps the rows whose
category equals the bound value, `ORDER BY created_at DESC` sorts newest first,
`LIMIT`/`OFFSET` cut the page, `COALESCE(c, '{}')` replaces a NULL array by the empty
array, and `COUNT(*)` counts the rows kept. -/

/-- A row of `catalog.products`. The array columns and the rating are nullable; the
columns scanned into plain Go fields are not. -/
structure StoredRow where
  id : String
  name : String
  description : String
  price : Float64
  primary_image_url : String
  images : Option (List String)
  category : String
  sku : String
  stock_count : Int
  tags : Option (List String)
  rating : Option Float64
  review_count : Int
  created_at : Time
  updated_at : Time
deriving DecidableEq, Repr

/-- The select list of `ListProducts` and `GetProduct` applied to one row, as scanned:
both arrays pass through COALESCE, the rating lands in a `sql.NullFloat64`. -/
def selectCoalesced (row : StoredRow) : ScannedRow :=
  { id := row.id, name := row.name, description := row.description, price := row.price,
    primary_image_url := row.primary_image_url, images := some (row.images.getD []),
    category := row.category, sku := row.sku, stock_count := row.stock_count,
    tags := some (row.tags.getD []),
    rating := match row.rating with
      | some x => { Float64 := x, Valid := true }
      | none => { Float64 := { bits := 0 }, Valid := false },
    review_count := row.review_count, created_at := row.created_at,
    updated_at := row.updated_at }

/-- Insertion of a row into a list kept newest first. -/
def insertNewest (row : StoredRow) : List StoredRow → List StoredRow
  | [] => [row]
  | x :: xs => if x.created_at ≤ row.created_at then row :: x :: xs else x :: insertNewest row xs

/-- The clause `ORDER BY created_at DESC`. -/
def newestFirst : List StoredRow → List StoredRow
  | [] => []
  | x :: xs => insertNewest x (newestFirst xs)

/-- The clauses `LIMIT limit OFFSET offset` over ordered rows, each then scanned without error. -/
def page (rows : List StoredRow) (limit offset : Int) : RowsResult :=
  if limit < 0 then RowsResult.failed "pq: LIMIT must not be negative"
  else if offset < 0 then RowsResult.failed "pq: OFFSET must not be negative"
  else
    RowsResult.rows
      (((rows.drop offset.toNat).take limit.toNat).map (fun row => Except.ok (selectCoalesced row)))
      none

/-- The reference store over a table. -/
def pg (table : List StoredRow) : DB :=
  { queryRows := fun query args =>
      if query = listSelect ++ " ORDER BY created_at DESC LIMIT $1 OFFSET $2" then
        match args with
        | [SqlArg.int limit, SqlArg.int offset] => page (newestFirst table) limit offset
        | _ => RowsResult.failed "pq: wrong arguments"
      else if query =
          listSelect ++ " WHERE category = $1 ORDER BY created_at DESC LIMIT $2 OFFSET $3" then
        match args with
        | [SqlArg.str category, SqlArg.int limit, SqlArg.int offset] =>
          page (newestFirst (table.filter (fun row => row.category = category))) limit offset
        | _ => RowsResult.failed "pq: wrong arguments"
      else RowsResult.failed "pq: unsupported statement"
    queryCount := fun query args =>
      if query = "SELECT COUNT(*) FROM catalog.products" then
        match args with
        | [] => Except.ok (table.length : Int)
        | _ => Except.error "pq: wrong arguments"
      else if query = "SELECT COUNT(*) FROM catalog.products WHERE category = $1" then
        match args with
        | [SqlArg.str category] =>
          Except.ok ((table.filter (fun row => row.category = category)).length : Int)
        | _ => Except.error "pq: wrong arguments"
      else Except.error "pq: unsupported statement"
    queryRow := fun query args =>
      if query = getQuery then
        match args with
        | [SqlArg.str id] =>
          match table.find? (fun row => row.id = id) with
          | some row => RowResult.row (selectCoalesced row)
          | none => RowResult.noRows
        | _ => RowResult.failed "pq: wrong arguments"
      else RowResult.failed "pq: unsupported statement"
    exec := fun query args =>
      if query = "DELETE FROM catalog.products WHERE id = $1" then
        match args with
        | [SqlArg.str id] =>
          ExecResult.done (Except.ok ((table.filter (fun row => row.id = id)).length : Int))
        | _ => ExecResult.failed "pq: wrong arguments"
      else ExecResult.failed "pq: unsupported statement" }

/-- A row with the given identifier, category and creation time and NULL arrays. -/
def sampleRow (id category : String) (created : Time) : StoredRow :=
  { id := id, name := "Clam", description := "", price := { bits := 0 },
    primary_image_url := "", images := none, category := category, sku := id,
    stock_count := 1, tags := none, rating := none, review_count := 0,
    created_at := created, updated_at := created }

/-- A table of three rows in two categories. -/
def sampleTable : List StoredRow :=
  [sampleRow "a" "shellfish" 1, sampleRow "b" "fish" 2, sampleRow "c" "shellfish" 3]

/-- The category rule as the specification words it: no predicate for the empty
category, otherwise the equality predicate on the first placeholder, bound to the
category. -/
def categoryPredicate (category : String) : String × List SqlArg :=
  if category = "" then ("", []) else (" WHERE category = $1", [SqlArg.str category])

/-! ## Sample surroundings for concrete runs -/

/-- A JWT library stub: `"good"` carries the admin role, `"user"` only a viewer role,
`"rsa"` declares a non-HMAC method and is passed through the key function, anything else
is malformed. -/
def sampleParse (tokenStr : String) (keyFunc : UnverifiedToken → Except String String) :
    Except String ParsedToken :=
  if tokenStr = "good" then
    Except.ok { claims := some { Roles := ["viewer", "admin"] }, Valid := true }
  else if tokenStr = "user" then
    Except.ok { claims := some { Roles := ["viewer"] }, Valid := true }
  else if tokenStr = "rsa" then
    match keyFunc { isHMAC := false, alg := "RS256" } with
    | Except.error err => Except.error err
    | Except.ok _ => Except.ok { claims := some { Roles := ["admin"] }, Valid := true }
  else Except.error "token is malformed"

/-- Surroundings with a secret set and the stub library. -/
def sampleEnv : AuthEnv := { JWT_SECRET := "s3cret", parseWithClaims := sampleParse }

/-- A request carrying the given Authorization header. -/
def withAuthorization (h : String) : Request :=
  { Header := [("Authorization", h)], Vars := [("id", "p-1")] }

/-- A request without Authorization header. -/
def anonymous : Request := { Header := [], Vars := [("id", "p-1")] }

/-- A connection on which nothing has been written. -/
def fresh : Conn := { w := { header := [], status := none, body := [] }, log := [] }

/-- A wrapped operation that answers 200 with a line of text. -/
def sampleOp : HandlerFunc := fun c _ => { c with w := c.w.Write (Chunk.text "done") }

/-- A connection to an empty table: lookups find no row, statements affect none. -/
def emptyStore : DB :=
  { queryRow := fun _ _ => RowResult.noRows
    queryCount := fun _ _ => Except.ok 0
    queryRows := fun _ _ => RowsResult.rows [] none
    exec := fun _ _ => ExecResult.done (Except.ok 0) }

/-- A connection that is down: every call fails. -/
def brokenStore : DB :=
  { queryRow := fun _ _ => RowResult.failed "connection refused"
    queryCount := fun _ _ => Except.error "connection refused"
    queryRows := fun _ _ => RowsResult.failed "connection refused"
    exec := fun _ _ => ExecResult.failed "connection refused" }

/-- The column value read back for a bound array argument: SQL NULL scans to the nil
slice, an array to the slice of its elements. -/
def arrayColumn : SqlArg → StringSlice
  | SqlArg.strArray xs => some xs
  | _ => none

/-- A connection that stores what the INSERT of `CreateProduct` binds and hands the stored
row back through RETURNING, with no rating, no reviews and both timestamps at `0`. -/
def echoStore : DB :=
  { queryRow := fun _ args =>
      match args with
      | [SqlArg.str id, SqlArg.str name, SqlArg.str description, SqlArg.float price,
         SqlArg.str url, images, SqlArg.str category, SqlArg.str sku, SqlArg.int stock, tags] =>
        RowResult.row
          { id := id, name := name, description := description, price := price,
            primary_image_url := url, images := arrayColumn images, category := category,
            sku := sku, stock_count := stock, tags := arrayColumn tags,
            rating := { Float64 := { bits := 0 }, Valid := false }, review_count := 0,
            created_at := 0, updated_at := 0 }
      | _ => RowResult.failed "bind"
    queryCount := fun _ _ => Except.error "unsupported"
    queryRows := fun _ _ => RowsResult.failed "unsupported"
    exec := fun _ _ => ExecResult.failed "unsupported" }

/-- A create request that names no images and no tags. -/
def plainCreate : CreateProductRequest :=
  { Name := "Clam", Description := "", Price := { bits := 4621819117588971520 },
    PrimaryImageURL := "", Images := none, Category := "shellfish", SKU := "CL-1",
    StockCount := 3, Tags := none }

/-- A list request with the given raw `limit` and `offset` parameters. -/
def listRequest (limit offset : String) : Request :=
  { Header := [], Vars := [], Query := [("limit", limit), ("offset", offset)] }

/-! # Theorems -/

theorem updateStmt_eq_applyFields (id : String) (req : UpdateProductRequest) :
    updateStmt id req =
      (let st := bindParam (applyFields
          { query := "UPDATE catalog.products SET updated_at = now()", args := [], argCount := 0 }
          (updateFields req)) " WHERE id = $" (SqlArg.str id)
       { st with query := st.query ++ updateReturning }) := rfl

theorem applyFields_eq (fs : List (String × Option SqlArg)) (st : Stmt) :
    applyFields st fs =
      { query := st.query ++ renderAssignments st.argCount ((presentOf fs).map Prod.fst)
        args := st.args ++ (presentOf fs).map Prod.snd
        argCount := st.argCount + (presentOf fs).length } := by
  induction fs generalizing st with
  | nil => simp [applyFields, presentOf, renderAssignments]
  | cons f fs ih =>
    obtain ⟨c, v⟩ := f
    cases v with
    | none => simpa [applyFields, presentOf, optParam] using ih st
    | some v =>
      rw [applyFields, ih]
      simp [optParam, bindParam, presentOf, renderAssignments, String.append_assoc,
        Nat.add_assoc, Nat.add_comm 1]

theorem presentOf_length_le (fs : List (String × Option SqlArg)) :
    (presentOf fs).length ≤ fs.length := by
  induction fs with
  | nil => simp [presentOf]
  | cons f fs ih =>
    obtain ⟨c, v⟩ := f
    cases v with
    | none => simp only [presentOf, List.length_cons]; omega
    | some v => simp only [presentOf, List.length_cons]; omega

theorem updateStmt_eq (id : String) (req : UpdateProductRequest) :
    updateStmt id req =
      { query := updateText ((presentFields req).map Prod.fst)
        args := (presentFields req).map Prod.snd ++ [SqlArg.str id]
        argCount := (presentFields req).length + 1 } := by
  rw [updateStmt_eq_applyFields, applyFields_eq]
  simp [bindParam, updateText, presentFields, String.append_assoc]

theorem UpdateProduct_eq (db : DB) (id : String) (req : UpdateProductRequest) :
    Store.UpdateProduct db id req =
      updateResult (db.queryRow (updateStmt id req).query (updateStmt id req).args) := by
  rfl

theorem renderAssignments_append (start : Nat) (pre : List String) (c : String)
    (post : List String) :
    renderAssignments start (pre ++ c :: post) =
      renderAssignments start pre ++ ((", " ++ c ++ " = $" ++ toString (start + pre.length + 1))
        ++ renderAssignments (start + pre.length + 1) post) := by
  induction pre generalizing start with
  | nil => simp [renderAssignments]
  | cons x xs ih =>
    have e : start + 1 + xs.length + 1 = start + (xs.length + 1) + 1 := by omega
    rw [List.cons_append, renderAssignments, ih (start + 1), renderAssignments, e]
    simp only [List.length_cons, String.append_assoc]

/-- C1: with N fields present, the statement `UpdateProduct` builds numbers the SET
placeholders `$1..$N` in the fixed field order, binds the identity predicate last as
`WHERE id = $(N+1)`, and passes the N present values followed by `id`; the statement is
executed whatever N is, and for N = 0 it is
`UPDATE catalog.products SET updated_at = now() WHERE id = $1 RETURNING ...` with `[id]`. -/
theorem UpdateProduct_numbers_placeholders (db : DB) (id : String)
    (req : UpdateProductRequest) :
    (presentFields req).length ≤ 9 ∧
    (updateStmt id req).query = updateText ((presentFields req).map Prod.fst) ∧
    (updateStmt id req).args = (presentFields req).map Prod.snd ++ [SqlArg.str id] ∧
    (updateStmt id req).args.length = (presentFields req).length + 1 ∧
    (updateStmt id req).argCount = (presentFields req).length + 1 ∧
    (∀ pre c v post, presentFields req = pre ++ (c, v) :: post →
      (updateStmt id req).query =
        "UPDATE catalog.products SET updated_at = now()"
          ++ renderAssignments 0 (pre.map Prod.fst)
          ++ (", " ++ c ++ " = $" ++ toString (pre.length + 1))
          ++ renderAssignments (pre.length + 1) (post.map Prod.fst)
          ++ " WHERE id = $" ++ toString ((presentFields req).length + 1) ++ updateReturning ∧
      (updateStmt id req).args[pre.length]? = some v) ∧
    Store.UpdateProduct db id req =
      updateResult (db.queryRow (updateText ((presentFields req).map Prod.fst))
        ((presentFields req).map Prod.snd ++ [SqlArg.str id])) ∧
    (updateStmt id emptyUpdate).query =
      "UPDATE catalog.products SET updated_at = now() WHERE id = $1" ++ updateReturning ∧
    (updateStmt id emptyUpdate).args = [SqlArg.str id] ∧
    Store.UpdateProduct db id emptyUpdate =
      updateResult (db.queryRow
        ("UPDATE catalog.products SET updated_at = now() WHERE id = $1" ++ updateReturning)
        [SqlArg.str id]) := by
  have h := updateStmt_eq id req
  refine ⟨?_, ?_, ?_, ?_, ?_, ?_, ?_, ?_, ?_, ?_⟩
  · exact presentOf_length_le (updateFields req)
  · rw [h]
  · rw [h]
  · rw [h]; simp
  · rw [h]
  · intro pre c v post hsplit
    rw [h]
    constructor
    · simp only [updateText, hsplit, List.map_append, List.map_cons, renderAssignments_append,
        List.length_map, List.length_append, List.length_cons, Nat.zero_add,
        String.append_assoc]
    · have hl : (List.map Prod.snd pre).length ≤ pre.length := by simp
      simp only [hsplit, List.map_append, List.map_cons, List.append_assoc]
      rw [List.getElem?_append_right hl]
      simp
  · rw [UpdateProduct_eq, h]
  · rfl
  · rfl
  · rw [UpdateProduct_eq]; rfl

theorem presentOf_mem (fs : List (String × Option SqlArg)) (c : String) (v : SqlArg) :
    (c, v) ∈ presentOf fs ↔ (c, some v) ∈ fs := by
  induction fs with
  | nil => simp [presentOf]
  | cons f fs ih =>
    obtain ⟨c', v'⟩ := f
    cases v' with
    | none => simp [presentOf, ih]
    | some v' => simp [presentOf, ih]

theorem presentOf_sublist (fs : List (String × Option SqlArg)) :
    List.Sublist ((presentOf fs).map Prod.fst) (fs.map Prod.fst) := by
  induction fs with
  | nil => simp [presentOf]
  | cons f fs ih =>
    obtain ⟨c', v'⟩ := f
    cases v' with
    | none => simpa [presentOf] using List.Sublist.cons c' ih
    | some v' => simpa [presentOf] using ih

theorem presentFields_mem (req : UpdateProductRequest) (c : String) (v : SqlArg) :
    (c, v) ∈ presentFields req ↔ (c, some v) ∈ updateFields req :=
  presentOf_mem (updateFields req) c v

/-- C2: the SET list of the statement `UpdateProduct` builds is `updated_at = now()`
followed by one assignment per present field, in the fixed column order, each bound to
that field's value; columns outside the nine updatable ones (`id`, `created_at`, `rating`,
`review_count`) are never assigned; a present Images or Tags field pointing to an empty
sequence is assigned the empty array, an absent one is not assigned. -/
theorem UpdateProduct_sets_exactly_present_fields (id : String) (req : UpdateProductRequest) :
    (updateStmt id req).query = updateText ((presentFields req).map Prod.fst) ∧
    (updateStmt id req).args = (presentFields req).map Prod.snd ++ [SqlArg.str id] ∧
    List.Sublist ((presentFields req).map Prod.fst) updatableColumns ∧
    (∀ v, ("name", v) ∈ presentFields req ↔ req.Name.map SqlArg.str = some v) ∧
    (∀ v, ("description", v) ∈ presentFields req ↔ req.Description.map SqlArg.str = some v) ∧
    (∀ v, ("price", v) ∈ presentFields req ↔ req.Price.map SqlArg.float = some v) ∧
    (∀ v, ("primary_image_url", v) ∈ presentFields req ↔
      req.PrimaryImageURL.map SqlArg.str = some v) ∧
    (∀ v, ("images", v) ∈ presentFields req ↔ req.Images.map pqArray = some v) ∧
    (∀ v, ("category", v) ∈ presentFields req ↔ req.Category.map SqlArg.str = some v) ∧
    (∀ v, ("sku", v) ∈ presentFields req ↔ req.SKU.map SqlArg.str = some v) ∧
    (∀ v, ("stock_count", v) ∈ presentFields req ↔ req.StockCount.map SqlArg.int = some v) ∧
    (∀ v, ("tags", v) ∈ presentFields req ↔ req.Tags.map pqArray = some v) ∧
    (∀ v, ("id", v) ∉ presentFields req ∧ ("created_at", v) ∉ presentFields req ∧
      ("rating", v) ∉ presentFields req ∧ ("review_count", v) ∉ presentFields req ∧
      ("updated_at", v) ∉ presentFields req) ∧
    ("images", SqlArg.strArray []) ∈ presentFields { req with Images := some (some []) } ∧
    (∀ v, ("images", v) ∉ presentFields { req with Images := none }) ∧
    ("tags", SqlArg.strArray []) ∈ presentFields { req with Tags := some (some []) } ∧
    (∀ v, ("tags", v) ∉ presentFields { req with Tags := none }) := by
  have h := updateStmt_eq id req
  refine ⟨by rw [h], by rw [h], ?_, ?_, ?_, ?_, ?_, ?_, ?_, ?_, ?_, ?_, ?_, ?_, ?_, ?_, ?_⟩
  · exact presentOf_sublist (updateFields req)
  all_goals
    simp [presentFields_mem, updateFields, pqArray, eq_comm]

theorem HasRole_iff_mem (userRoles : List String) (required : String) :
    HasRole userRoles required = true ↔ required ∈ userRoles := by
  induction userRoles with
  | nil => simp [HasRole]
  | cons r rs ih =>
    by_cases h : r = required
    · simp [HasRole, h]
    · have h' : ¬ required = r := fun e => h e.symm
      simp [HasRole, h, h', ih]

theorem httpError_status (w : ResponseWriter) (msg : String) (code : Nat)
    (h : w.status = none) : (httpError w msg code).status = some code := by
  simp [httpError, ResponseWriter.Write, ResponseWriter.WriteHeader, ResponseWriter.HeaderSet,
    ResponseWriter.HeaderDel, h]

theorem httpError_body (w : ResponseWriter) (msg : String) (code : Nat) :
    (httpError w msg code).body = w.body ++ [Chunk.text (msg ++ "\n")] := by
  cases hs : w.status <;>
  simp [httpError, ResponseWriter.Write, ResponseWriter.WriteHeader, ResponseWriter.HeaderSet,
    ResponseWriter.HeaderDel, hs]

theorem RequireAdmin_no_token (env : AuthEnv) (next : HandlerFunc) (c : Conn) (r : Request)
    (h : GetBearerToken r = "") :
    RequireAdmin env next c r =
      { w := httpError c.w "unauthorized" 401,
        log := c.log ++ [LogLine.debug "RequireAdmin: no bearer token provided"] } := by
  simp [RequireAdmin, h, Conn.Debugf]

theorem RequireAdmin_bad_token (env : AuthEnv) (next : HandlerFunc) (c : Conn) (r : Request)
    (err : String) (h : GetBearerToken r ≠ "")
    (hp : ParseToken env (GetBearerToken r) = Except.error err) :
    RequireAdmin env next c r =
      { w := httpError c.w "unauthorized" 401,
        log := c.log ++ [LogLine.debug ("RequireAdmin: JWT parse error: " ++ err)] } := by
  simp [RequireAdmin, h, hp, Conn.Debugf]

theorem RequireAdmin_no_role (env : AuthEnv) (next : HandlerFunc) (c : Conn) (r : Request)
    (claims : Claims) (h : GetBearerToken r ≠ "")
    (hp : ParseToken env (GetBearerToken r) = Except.ok claims)
    (hr : "admin" ∉ claims.Roles) :
    RequireAdmin env next c r =
      { w := httpError c.w "forbidden - admin role required" 403,
        log := c.log ++ [LogLine.debug "RequireAdmin: user lacks admin role"] } := by
  have hr' : HasRole claims.Roles "admin" = false := by
    cases hh : HasRole claims.Roles "admin"
    · rfl
    · exact absurd ((HasRole_iff_mem _ _).1 hh) hr
  simp [RequireAdmin, h, hp, hr', Conn.Debugf]

theorem RequireAdmin_admin (env : AuthEnv) (next : HandlerFunc) (c : Conn) (r : Request)
    (claims : Claims) (h : GetBearerToken r ≠ "")
    (hp : ParseToken env (GetBearerToken r) = Except.ok claims)
    (hr : "admin" ∈ claims.Roles) :
    RequireAdmin env next c r = next c r := by
  have hr' : HasRole claims.Roles "admin" = true := (HasRole_iff_mem _ _).2 hr
  simp [RequireAdmin, h, hp, hr']

/-- C3: `RequireAdmin(op)` decides in order: no credential gives 401 without invoking `op`;
a credential that fails `ParseToken` gives 401 without invoking `op`; verified claims
without the `admin` role give 403 without invoking `op`; otherwise the result is exactly
that of `op` on the original connection and request. `RequireAdmin(op)` acts as `op` for
every `op` if and only if a credential is present, verifies and carries `admin`. -/
theorem RequireAdmin_decision_order (env : AuthEnv) (next : HandlerFunc) (c : Conn)
    (r : Request) :
    (GetBearerToken r = "" →
      (RequireAdmin env next c r).w = httpError c.w "unauthorized" 401 ∧
      (c.w.status = none → (RequireAdmin env next c r).w.status = some 401) ∧
      ∀ op, RequireAdmin env op c r = RequireAdmin env next c r) ∧
    (∀ err, GetBearerToken r ≠ "" → ParseToken env (GetBearerToken r) = Except.error err →
      (RequireAdmin env next c r).w = httpError c.w "unauthorized" 401 ∧
      (c.w.status = none → (RequireAdmin env next c r).w.status = some 401) ∧
      ∀ op, RequireAdmin env op c r = RequireAdmin env next c r) ∧
    (∀ claims, GetBearerToken r ≠ "" → ParseToken env (GetBearerToken r) = Except.ok claims →
      "admin" ∉ claims.Roles →
      (RequireAdmin env next c r).w = httpError c.w "forbidden - admin role required" 403 ∧
      (c.w.status = none → (RequireAdmin env next c r).w.status = some 403) ∧
      ∀ op, RequireAdmin env op c r = RequireAdmin env next c r) ∧
    (∀ claims, GetBearerToken r ≠ "" → ParseToken env (GetBearerToken r) = Except.ok claims →
      "admin" ∈ claims.Roles → RequireAdmin env next c r = next c r) ∧
    ((∀ op, RequireAdmin env op c r = op c r) ↔
      (GetBearerToken r ≠ "" ∧
        ∃ claims, ParseToken env (GetBearerToken r) = Except.ok claims ∧
          "admin" ∈ claims.Roles)) := by
  refine ⟨?_, ?_, ?_, ?_, ?_⟩
  · intro h
    refine ⟨by rw [RequireAdmin_no_token env next c r h], ?_, ?_⟩
    · intro hs
      rw [RequireAdmin_no_token env next c r h]
      exact httpError_status _ _ _ hs
    · intro op
      rw [RequireAdmin_no_token env op c r h, RequireAdmin_no_token env next c r h]
  · intro err h hp
    refine ⟨by rw [RequireAdmin_bad_token env next c r err h hp], ?_, ?_⟩
    · intro hs
      rw [RequireAdmin_bad_token env next c r err h hp]
      exact httpError_status _ _ _ hs
    · intro op
      rw [RequireAdmin_bad_token env op c r err h hp,
        RequireAdmin_bad_token env next c r err h hp]
  · intro claims h hp hr
    refine ⟨by rw [RequireAdmin_no_role env next c r claims h hp hr], ?_, ?_⟩
    · intro hs
      rw [RequireAdmin_no_role env next c r claims h hp hr]
      exact httpError_status _ _ _ hs
    · intro op
      rw [RequireAdmin_no_role env op c r claims h hp hr,
        RequireAdmin_no_role env next c r claims h hp hr]
  · intro claims h hp hr
    exact RequireAdmin_admin env next c r claims h hp hr
  · constructor
    · intro hall
      have hq := hall (fun _ _ => { w := { header := [], status := none, body := [] }, log := [] })
      have hbody : (RequireAdmin env
          (fun _ _ => { w := { header := [], status := none, body := [] }, log := [] })
          c r).w.body = [] := by rw [hq]
      by_cases h : GetBearerToken r = ""
      · rw [RequireAdmin_no_token env _ c r h] at hbody
        simp [httpError_body] at hbody
      · refine ⟨h, ?_⟩
        cases hp : ParseToken env (GetBearerToken r) with
        | error err =>
          rw [RequireAdmin_bad_token env _ c r err h hp] at hbody
          simp [httpError_body] at hbody
        | ok claims =>
          by_cases hr : "admin" ∈ claims.Roles
          · exact ⟨claims, rfl, hr⟩
          · rw [RequireAdmin_no_role env _ c r claims h hp hr] at hbody
            simp [httpError_body] at hbody
    · rintro ⟨h, claims, hp, hr⟩ op
      exact RequireAdmin_admin env op c r claims h hp hr

/-- C3 at concrete requests: no header gives 401, a viewer token gives 403, an admin token
runs the wrapped operation. -/
theorem RequireAdmin_decision_order_witness :
    (RequireAdmin sampleEnv sampleOp fresh anonymous).w.status = some 401 ∧
    (RequireAdmin sampleEnv sampleOp fresh (withAuthorization "Bearer user")).w.status
      = some 403 ∧
    RequireAdmin sampleEnv sampleOp fresh (withAuthorization "Bearer good")
      = sampleOp fresh (withAuthorization "Bearer good") :=
  ⟨((RequireAdmin_decision_order sampleEnv sampleOp fresh anonymous).1 (by decide)).2.1 rfl,
   ((RequireAdmin_decision_order sampleEnv sampleOp fresh (withAuthorization "Bearer user")).2.2.1
      { Roles := ["viewer"] } (by decide) rfl (by decide)).2.1 rfl,
   (RequireAdmin_decision_order sampleEnv sampleOp fresh (withAuthorization "Bearer good")).2.2.2.1
      { Roles := ["viewer", "admin"] } (by decide) rfl (by decide)⟩

/-- C10: the 401 written for a request without credential and the 401 written for a
request whose credential fails verification, for whatever error, are the same response:
same status, same headers, same body. -/
theorem unauthorized_response_hides_cause (env : AuthEnv) (next : HandlerFunc)
    (c₁ c₂ c₃ : Conn) (r₁ r₂ r₃ : Request) (err₂ err₃ : String)
    (hw₂ : c₁.w = c₂.w) (hw₃ : c₁.w = c₃.w)
    (h₁ : GetBearerToken r₁ = "")
    (h₂ : GetBearerToken r₂ ≠ "") (hp₂ : ParseToken env (GetBearerToken r₂) = Except.error err₂)
    (h₃ : GetBearerToken r₃ ≠ "") (hp₃ : ParseToken env (GetBearerToken r₃) = Except.error err₃) :
    (RequireAdmin env next c₁ r₁).w = (RequireAdmin env next c₂ r₂).w ∧
    (RequireAdmin env next c₂ r₂).w = (RequireAdmin env next c₃ r₃).w ∧
    (RequireAdmin env next c₁ r₁).w.status = (RequireAdmin env next c₂ r₂).w.status ∧
    (RequireAdmin env next c₁ r₁).w.header = (RequireAdmin env next c₂ r₂).w.header ∧
    (RequireAdmin env next c₁ r₁).w.body = (RequireAdmin env next c₂ r₂).w.body ∧
    (RequireAdmin env next c₁ r₁).w = httpError c₁.w "unauthorized" 401 := by
  rw [RequireAdmin_no_token env next c₁ r₁ h₁, RequireAdmin_bad_token env next c₂ r₂ err₂ h₂ hp₂,
    RequireAdmin_bad_token env next c₃ r₃ err₃ h₃ hp₃]
  simp [← hw₂, ← hw₃]

/-- C10 at concrete requests: no header, a malformed token, and a token declaring a
non-HMAC algorithm. -/
theorem unauthorized_response_hides_cause_witness :
    (RequireAdmin sampleEnv sampleOp fresh anonymous).w
      = (RequireAdmin sampleEnv sampleOp fresh (withAuthorization "Bearer garbage")).w ∧
    (RequireAdmin sampleEnv sampleOp fresh (withAuthorization "Bearer garbage")).w
      = (RequireAdmin sampleEnv sampleOp fresh (withAuthorization "Bearer rsa")).w :=
  have h := unauthorized_response_hides_cause sampleEnv sampleOp fresh fresh fresh anonymous
    (withAuthorization "Bearer garbage") (withAuthorization "Bearer rsa")
    "parse token failed: token is malformed"
    "parse token failed: unexpected signing method: RS256"
    rfl rfl (by decide) (by decide) rfl (by decide) rfl
  ⟨h.1, h.2.1⟩

theorem DeleteProduct_handler_status (db : DB) (c : Conn) (r : Request)
    (hs : c.w.status = none) :
    (Handler.DeleteProduct db c r).w.status =
      some (if Store.DeleteProduct db (r.Var "id") = none then 204 else 500) := by
  cases hd : Store.DeleteProduct db (r.Var "id") with
  | none => simp [Handler.DeleteProduct, hd, ResponseWriter.WriteHeader, hs]
  | some err =>
    simp only [Handler.DeleteProduct, hd, Conn.Errorf]
    simpa using httpError_status c.w _ 500 hs

theorem not_found_ne_wrapped (err : String) :
    "product not found" ≠ "DeleteProduct: " ++ err ∧
    "product not found" ≠ "DeleteProduct rows affected: " ++ err := by
  constructor <;>
  · intro e
    have h := congrArg (fun s : String => s.data.head?) e
    simp [String.data_append] at h

/-- C4 (the code at the failing input): when the delete statement affects zero rows,
`DeleteProduct` returns the error `product not found`, whose text differs from that of
every wrapped execution error, and the handler, which maps every error to 500, answers
500 `failed to delete product`; it answers 204 or 500, never 404. -/
theorem DeleteProduct_zero_rows_answers_500 (db : DB) (c : Conn) (r : Request)
    (hs : c.w.status = none)
    (h0 : db.exec "DELETE FROM catalog.products WHERE id = $1" [SqlArg.str (r.Var "id")]
      = ExecResult.done (Except.ok 0)) :
    Store.DeleteProduct db (r.Var "id") = some "product not found" ∧
    (Handler.DeleteProduct db c r).w.status = some 500 ∧
    (Handler.DeleteProduct db c r).w.body = c.w.body ++ [Chunk.text "failed to delete product\n"] ∧
    (∀ db' c' r', c'.w.status = none → (Handler.DeleteProduct db' c' r').w.status ≠ some 404) ∧
    (∀ err, "product not found" ≠ "DeleteProduct: " ++ err ∧
      "product not found" ≠ "DeleteProduct rows affected: " ++ err) := by
  have hd : Store.DeleteProduct db (r.Var "id") = some "product not found" := by
    simp [Store.DeleteProduct, h0]
  refine ⟨hd, ?_, ?_, ?_, not_found_ne_wrapped⟩
  · rw [DeleteProduct_handler_status db c r hs, hd]; simp
  · simp only [Handler.DeleteProduct, hd, Conn.Errorf]
    exact httpError_body _ _ _
  · intro db' c' r' hs'
    rw [DeleteProduct_handler_status db' c' r' hs']
    split <;> simp

/-- C4 on an empty table: deleting `p-1` answers 500. -/
theorem DeleteProduct_zero_rows_answers_500_witness :
    Store.DeleteProduct emptyStore "p-1" = some "product not found" ∧
    (Handler.DeleteProduct emptyStore fresh anonymous).w.status = some 500 :=
  have h := DeleteProduct_zero_rows_answers_500 emptyStore fresh anonymous rfl rfl
  ⟨h.1, h.2.1⟩

/-- C5 (the code at the failing input): `CreateProduct` reads the array columns back through
a RETURNING list without COALESCE, so when the stored `images` column is NULL the returned
Product carries the nil slice in `Images`; the same holds for `tags`. -/
theorem CreateProduct_returns_nil_slice (db : DB) (id : String) (req : CreateProductRequest)
    (row : ScannedRow)
    (hq : db.queryRow createQuery
      [SqlArg.str id, SqlArg.str req.Name, SqlArg.str req.Description, SqlArg.float req.Price,
       SqlArg.str req.PrimaryImageURL, pqArray req.Images, SqlArg.str req.Category,
       SqlArg.str req.SKU, SqlArg.int req.StockCount, pqArray req.Tags] = RowResult.row row)
    (hi : row.images = none) (ht : row.tags = none) :
    ∃ p, Store.CreateProduct db id req = (some p, none) ∧ p.Images = none ∧ p.Tags = none := by
  refine ⟨productOfRow row, ?_, ?_, ?_⟩
  · simp [Store.CreateProduct, hq]
  · simp [productOfRow, hi]
  · simp [productOfRow, ht]

/-- C5 on a store that reads back what it stored: a create request without images and
tags binds NULL for both and gets a Product with nil `Images` and nil `Tags`. -/
theorem CreateProduct_returns_nil_slice_witness :
    pqArray plainCreate.Images = SqlArg.null ∧
    ∃ p, Store.CreateProduct echoStore "p-1" plainCreate = (some p, none) ∧
      p.Images = none ∧ p.Tags = none :=
  ⟨rfl, CreateProduct_returns_nil_slice echoStore "p-1" plainCreate
    { id := "p-1", name := "Clam", description := "", price := { bits := 4621819117588971520 },
      primary_image_url := "", images := none, category := "shellfish", sku := "CL-1",
      stock_count := 3, tags := none, rating := { Float64 := { bits := 0 }, Valid := false },
      review_count := 0, created_at := 0, updated_at := 0 } rfl rfl rfl⟩

theorem UpdateProduct_returns_nil_slice (db : DB) (id : String) (req : UpdateProductRequest)
    (row : ScannedRow)
    (hq : db.queryRow (updateStmt id req).query (updateStmt id req).args = RowResult.row row)
    (hi : row.images = none) :
    ∃ p, Store.UpdateProduct db id req = (some p, none) ∧ p.Images = none := by
  refine ⟨productOfRow row, ?_, ?_⟩
  · rw [UpdateProduct_eq, hq]; rfl
  · simp [productOfRow, hi]

theorem GetProduct_noRows (db : DB) (id : String)
    (h : db.queryRow getQuery [SqlArg.str id] = RowResult.noRows) :
    Store.GetProduct db id = (none, none) := by
  simp [Store.GetProduct, h]

theorem GetProduct_failed (db : DB) (id err : String)
    (h : db.queryRow getQuery [SqlArg.str id] = RowResult.failed err) :
    Store.GetProduct db id = (none, some ("GetProduct query: " ++ err)) := by
  simp [Store.GetProduct, h]

theorem GetProduct_row (db : DB) (id : String) (row : ScannedRow)
    (h : db.queryRow getQuery [SqlArg.str id] = RowResult.row row) :
    Store.GetProduct db id = (some (productOfRow row), none) := by
  simp [Store.GetProduct, h]

theorem GetProduct_handler_error (db : DB) (c : Conn) (r : Request) (err : String)
    (h : db.queryRow getQuery [SqlArg.str (r.Var "id")] = RowResult.failed err) :
    Handler.GetProduct db c r =
      { w := httpError c.w "internal error" 500,
        log := c.log ++ [LogLine.error ("GetProduct: " ++ ("GetProduct query: " ++ err))] } := by
  simp [Handler.GetProduct, GetProduct_failed db _ err h, Conn.Errorf]

theorem GetProduct_handler_missing (db : DB) (c : Conn) (r : Request)
    (h : db.queryRow getQuery [SqlArg.str (r.Var "id")] = RowResult.noRows) :
    Handler.GetProduct db c r = { w := httpError c.w "product not found" 404, log := c.log } := by
  simp [Handler.GetProduct, GetProduct_noRows db _ h]

theorem GetProduct_handler_found (db : DB) (c : Conn) (r : Request) (row : ScannedRow)
    (h : db.queryRow getQuery [SqlArg.str (r.Var "id")] = RowResult.row row) :
    Handler.GetProduct db c r =
      { w := (c.w.HeaderSet "Content-Type" "application/json").Write
          (Chunk.product (productOfRow row)),
        log := c.log } := by
  simp [Handler.GetProduct, GetProduct_row db _ row h]

/-- C9: `GetProduct` returns the not-found sentinel (no product, no error) exactly when the
lookup matches no row, an error and no product exactly when the lookup fails otherwise, and
the decoded row with no error when it succeeds; the handler answers 404 exactly for the
sentinel, 500 exactly for an error, and 200 with the entity otherwise. -/
theorem GetProduct_never_conflates (db : DB) (c : Conn) (r : Request)
    (hs : c.w.status = none) :
    (Store.GetProduct db (r.Var "id") = (none, none) ↔
      db.queryRow getQuery [SqlArg.str (r.Var "id")] = RowResult.noRows) ∧
    (∀ err, db.queryRow getQuery [SqlArg.str (r.Var "id")] = RowResult.failed err →
      Store.GetProduct db (r.Var "id") = (none, some ("GetProduct query: " ++ err))) ∧
    ((Store.GetProduct db (r.Var "id")).2 ≠ none ↔
      ∃ err, db.queryRow getQuery [SqlArg.str (r.Var "id")] = RowResult.failed err) ∧
    (∀ row, db.queryRow getQuery [SqlArg.str (r.Var "id")] = RowResult.row row →
      Store.GetProduct db (r.Var "id") = (some (productOfRow row), none)) ∧
    ((∃ p, Store.GetProduct db (r.Var "id") = (some p, none)) ↔
      ∃ row, db.queryRow getQuery [SqlArg.str (r.Var "id")] = RowResult.row row) ∧
    ((Handler.GetProduct db c r).w.status = some 404 ↔
      Store.GetProduct db (r.Var "id") = (none, none)) ∧
    ((Handler.GetProduct db c r).w.status = some 500 ↔
      (Store.GetProduct db (r.Var "id")).2 ≠ none) ∧
    ((Handler.GetProduct db c r).w.status = some 200 ↔
      ∃ p, Store.GetProduct db (r.Var "id") = (some p, none)) ∧
    (∀ p, Store.GetProduct db (r.Var "id") = (some p, none) →
      (Handler.GetProduct db c r).w.body = c.w.body ++ [Chunk.product p]) := by
  cases hq : db.queryRow getQuery [SqlArg.str (r.Var "id")] with
  | noRows =>
    have hst : (httpError c.w "product not found" 404).status = some 404 :=
      httpError_status _ _ _ hs
    rw [GetProduct_handler_missing db c r hq, GetProduct_noRows db _ hq]
    simp [hst]
  | failed err =>
    have hst : (httpError c.w "internal error" 500).status = some 500 :=
      httpError_status _ _ _ hs
    rw [GetProduct_handler_error db c r err hq, GetProduct_failed db _ err hq]
    simp [hst]
  | row row =>
    rw [GetProduct_handler_found db c r row hq, GetProduct_row db _ row hq]
    simp [ResponseWriter.Write, ResponseWriter.WriteHeader, ResponseWriter.HeaderSet, hs]

/-- C9 on an empty table and on a broken connection: 404 for the missing row, 500 for the
failed lookup. -/
theorem GetProduct_never_conflates_witness :
    (Handler.GetProduct emptyStore fresh anonymous).w.status = some 404 ∧
    (Handler.GetProduct brokenStore fresh anonymous).w.status = some 500 :=
  ⟨(GetProduct_never_conflates emptyStore fresh anonymous rfl).2.2.2.2.2.1.2 rfl,
   (GetProduct_never_conflates brokenStore fresh anonymous rfl).2.2.2.2.2.2.1.2 (by decide)⟩

theorem listStmt_unfiltered (limit offset : Int) :
    listStmt limit offset "" =
      { query := listSelect ++ " ORDER BY created_at DESC LIMIT $1 OFFSET $2"
        args := [SqlArg.int limit, SqlArg.int offset]
        argCount := 2 } := by
  simp only [listStmt, bindParam, String.append_assoc]
  simp
  rfl

theorem listStmt_filtered (limit offset : Int) (category : String) (h : category ≠ "") :
    listStmt limit offset category =
      { query := listSelect ++ " WHERE category = $1 ORDER BY created_at DESC LIMIT $2 OFFSET $3"
        args := [SqlArg.str category, SqlArg.int limit, SqlArg.int offset]
        argCount := 3 } := by
  simp only [listStmt, bindParam, if_pos h, String.append_assoc]
  simp
  rfl

/-- C7: the query text of `ListProducts` is the fixed SELECT, then ` WHERE category = $1`
exactly when the category is non-empty, then
` ORDER BY created_at DESC LIMIT $k OFFSET $(k+1)` with k = 2 under the filter and k = 1
otherwise; the arguments are `[category, limit, offset]` or `[limit, offset]`; the text
depends only on whether the category is empty, and this statement is the one executed. -/
theorem ListProducts_query_shape (db : DB) (limit offset : Int) (category : String) :
    (listStmt limit offset category).query =
      listSelect ++ (if category = "" then "" else " WHERE category = $1")
        ++ " ORDER BY created_at DESC"
        ++ " LIMIT $" ++ toString (if category = "" then 1 else 2)
        ++ " OFFSET $" ++ toString ((if category = "" then 1 else 2) + 1) ∧
    (listStmt limit offset category).args =
      (if category = "" then [] else [SqlArg.str category])
        ++ [SqlArg.int limit, SqlArg.int offset] ∧
    (∀ (limit' offset' : Int) (category' : String), (category = "" ↔ category' = "") →
      (listStmt limit' offset' category').query = (listStmt limit offset category).query) ∧
    (∀ scans final, db.queryRows (listStmt limit offset category).query
        (listStmt limit offset category).args = RowsResult.rows scans final →
      ∀ products, scanAll scans [] = Except.ok products →
        Store.ListProducts db limit offset category = (some products, final)) := by
  refine ⟨?_, ?_, ?_, ?_⟩
  · by_cases h : category = ""
    · subst h; rw [listStmt_unfiltered]; simp [String.append_assoc]; rfl
    · rw [listStmt_filtered limit offset category h]; simp [h, String.append_assoc]; rfl
  · by_cases h : category = ""
    · subst h; rw [listStmt_unfiltered]; simp
    · rw [listStmt_filtered limit offset category h]; simp [h]
  · intro limit' offset' category' hiff
    by_cases h : category = ""
    · have h' : category' = "" := hiff.1 h
      subst h; subst h'; rw [listStmt_unfiltered, listStmt_unfiltered]
    · have h' : category' ≠ "" := fun e => h (hiff.2 e)
      rw [listStmt_filtered limit offset category h, listStmt_filtered limit' offset' category' h']
  · intro scans final hq products hp
    simp [Store.ListProducts, hq, hp]

theorem length_insertNewest (row : StoredRow) (rows : List StoredRow) :
    (insertNewest row rows).length = rows.length + 1 := by
  induction rows with
  | nil => rfl
  | cons x xs ih =>
    by_cases h : x.created_at ≤ row.created_at
    · simp [insertNewest, h]
    · simp [insertNewest, h, ih]

theorem length_newestFirst (rows : List StoredRow) :
    (newestFirst rows).length = rows.length := by
  induction rows with
  | nil => rfl
  | cons x xs ih => simp [newestFirst, length_insertNewest, ih]

theorem scanAll_ok (rows : List StoredRow) (products : List Product) :
    scanAll (rows.map (fun row => Except.ok (selectCoalesced row))) products =
      Except.ok (products ++ rows.map (fun row => productOfRow (selectCoalesced row))) := by
  induction rows generalizing products with
  | nil => simp [scanAll]
  | cons x xs ih => simp [scanAll, ih]

theorem append_left_ne (s a b : String) (h : a ≠ b) : s ++ a ≠ s ++ b := by
  intro e
  apply h
  have hd : (s ++ a).data = (s ++ b).data := by rw [e]
  rw [String.data_append, String.data_append] at hd
  exact String.ext (List.append_cancel_left hd)

theorem pg_list_unfiltered (table : List StoredRow) (limit offset : Int) :
    (pg table).queryRows (listStmt limit offset "").query (listStmt limit offset "").args =
      page (newestFirst table) limit offset := by
  rw [listStmt_unfiltered]
  simp [pg]

theorem pg_list_filtered (table : List StoredRow) (limit offset : Int) (category : String)
    (h : category ≠ "") :
    (pg table).queryRows (listStmt limit offset category).query
        (listStmt limit offset category).args =
      page (newestFirst (table.filter (fun row => row.category = category))) limit offset := by
  rw [listStmt_filtered limit offset category h]
  have hne : listSelect ++ " WHERE category = $1 ORDER BY created_at DESC LIMIT $2 OFFSET $3" ≠
      listSelect ++ " ORDER BY created_at DESC LIMIT $1 OFFSET $2" :=
    append_left_ne _ _ _ (by decide)
  simp [pg, hne]

theorem ListProducts_of_page (db : DB) (limit offset : Int) (category : String)
    (rows : List StoredRow) (h0 : 0 ≤ limit) (ho : 0 ≤ offset)
    (hq : db.queryRows (listStmt limit offset category).query
      (listStmt limit offset category).args = page rows limit offset) :
    Store.ListProducts db limit offset category =
      (some (((rows.drop offset.toNat).take limit.toNat).map
        (fun row => productOfRow (selectCoalesced row))), none) := by
  have hl : ¬ limit < 0 := by omega
  have hf : ¬ offset < 0 := by omega
  simp only [Store.ListProducts, hq, page, if_neg hl, if_neg hf, scanAll_ok, List.nil_append]

theorem countStmt_eq (category : String) :
    countStmt category =
      ("SELECT COUNT(*) FROM catalog.products" ++ (categoryPredicate category).1,
       (categoryPredicate category).2) := by
  by_cases h : category = ""
  · subst h; rfl
  · simp [countStmt, categoryPredicate, h]

theorem pg_count (table : List StoredRow) (category : String) :
    Store.CountProducts (pg table) category =
      (((if category = "" then table
          else table.filter (fun row => row.category = category)).length : Int), none) := by
  by_cases h : category = ""
  · subst h; simp [Store.CountProducts, countStmt, pg]
  · simp [Store.CountProducts, countStmt, pg, h]

theorem pg_list_all (table : List StoredRow) (category : String) (limit : Int)
    (hl : (table.length : Int) ≤ limit) :
    Store.ListProducts (pg table) limit 0 category =
      (some ((newestFirst (if category = "" then table
          else table.filter (fun row => row.category = category))).map
        (fun row => productOfRow (selectCoalesced row))), none) := by
  have h0 : (0 : Int) ≤ limit := le_trans (Int.ofNat_nonneg _) hl
  by_cases h : category = ""
  · subst h
    rw [ListProducts_of_page (pg table) limit 0 "" (newestFirst table) h0 le_rfl
      (pg_list_unfiltered table limit 0)]
    have hlen : (newestFirst table).length ≤ limit.toNat := by
      rw [length_newestFirst]; omega
    simp [List.take_of_length_le hlen]
  · rw [ListProducts_of_page (pg table) limit 0 category _ h0 le_rfl
      (pg_list_filtered table limit 0 category h)]
    have hf : (table.filter (fun row => row.category = category)).length ≤ table.length :=
      List.length_filter_le _ _
    have hlen : (newestFirst (table.filter (fun row => row.category = category))).length
        ≤ limit.toNat := by
      rw [length_newestFirst]; omega
    simp [List.take_of_length_le hlen, h]

/-- C8: `CountProducts` and `ListProducts` add the same predicate, `category = $1` bound to
the category exactly when it is non-empty; hence, over any table, the count returned for a
category is the number of products the listing returns for it with offset 0 and a limit
of at least the table size. -/
theorem CountProducts_matches_ListProducts (table : List StoredRow) (category : String)
    (limit : Int) (hl : (table.length : Int) ≤ limit) :
    (countStmt category).1 =
      "SELECT COUNT(*) FROM catalog.products" ++ (categoryPredicate category).1 ∧
    (countStmt category).2 = (categoryPredicate category).2 ∧
    (listStmt limit 0 category).query =
      listSelect ++ (categoryPredicate category).1 ++ " ORDER BY created_at DESC"
        ++ " LIMIT $" ++ toString ((categoryPredicate category).2.length + 1)
        ++ " OFFSET $" ++ toString ((categoryPredicate category).2.length + 2) ∧
    (listStmt limit 0 category).args =
      (categoryPredicate category).2 ++ [SqlArg.int limit, SqlArg.int 0] ∧
    ∃ products, Store.ListProducts (pg table) limit 0 category = (some products, none) ∧
      Store.CountProducts (pg table) category = ((products.length : Int), none) := by
  refine ⟨by rw [countStmt_eq], by rw [countStmt_eq], ?_, ?_, ?_⟩
  · by_cases h : category = ""
    · subst h; rw [listStmt_unfiltered]; simp [categoryPredicate, String.append_assoc]; rfl
    · rw [listStmt_filtered limit 0 category h]
      simp [categoryPredicate, h, String.append_assoc]; rfl
  · by_cases h : category = ""
    · subst h; rw [listStmt_unfiltered]; simp [categoryPredicate]
    · rw [listStmt_filtered limit 0 category h]; simp [categoryPredicate, h]
  · refine ⟨_, pg_list_all table category limit hl, ?_⟩
    rw [pg_count]
    simp [length_newestFirst]

/-- C8 on a table of three rows, two of them shellfish: the count is 2 and the listing
with limit 3 returns as many products. -/
theorem CountProducts_matches_ListProducts_witness :
    ∃ products, Store.ListProducts (pg sampleTable) 3 0 "shellfish" = (some products, none) ∧
      Store.CountProducts (pg sampleTable) "shellfish" = ((products.length : Int), none) :=
  (CountProducts_matches_ListProducts sampleTable "shellfish" 3 (by decide)).2.2.2.2

theorem cutAt_some (sep : Char) (l a b : List Char) (h : cutAt sep l = some (a, b)) :
    l = a ++ sep :: b ∧ sep ∉ a := by
  induction l generalizing a with
  | nil => simp [cutAt] at h
  | cons x xs ih =>
    by_cases hx : x = sep
    · simp [cutAt, hx] at h
      obtain ⟨ha, hb⟩ := h
      subst ha; subst hb; subst hx
      simp
    · simp only [cutAt, if_neg hx] at h
      cases hc : cutAt sep xs with
      | none => simp [hc] at h
      | some p =>
        obtain ⟨a', b'⟩ := p
        simp [hc] at h
        obtain ⟨ha, hb⟩ := h
        subst ha; subst hb
        obtain ⟨hl, hn⟩ := ih a' hc
        refine ⟨by simp [hl], ?_⟩
        simp only [List.mem_cons, not_or]
        exact ⟨fun e => hx e.symm, hn⟩

theorem cutAt_append (sep : Char) (a b : List Char) (h : sep ∉ a) :
    cutAt sep (a ++ sep :: b) = some (a, b) := by
  induction a with
  | nil => simp [cutAt]
  | cons x xs ih =>
    simp only [List.mem_cons, not_or] at h
    have hx : ¬ x = sep := fun e => h.1 e.symm
    simp [cutAt, hx, ih h.2]

theorem EqualFold_Bearer_no_space (scheme : String) (h : EqualFold scheme "Bearer" = true) :
    ' ' ∉ scheme.data := by
  intro hmem
  have hm : Char.toLower ' ' ∈ scheme.data.map Char.toLower := List.mem_map_of_mem _ hmem
  have he : scheme.data.map Char.toLower = "Bearer".data.map Char.toLower := by
    simpa [EqualFold] using h
  rw [he] at hm
  revert hm
  decide

theorem GetBearerToken_of_form (r : Request) (scheme c : String)
    (hh : r.HeaderGet "Authorization" = scheme ++ " " ++ c)
    (hf : EqualFold scheme "Bearer" = true) : GetBearerToken r = c := by
  have hdata : (scheme ++ " " ++ c).data = scheme.data ++ ' ' :: c.data := by
    simp [String.data_append]
  have hne : ¬ scheme ++ " " ++ c = "" := by
    intro e
    have := congrArg String.data e
    rw [hdata] at this
    simp at this
  have hcut : cutAt ' ' (scheme ++ " " ++ c).data = some (scheme.data, c.data) := by
    rw [hdata]
    exact cutAt_append ' ' _ _ (EqualFold_Bearer_no_space scheme hf)
  simp only [GetBearerToken, hh, if_neg hne, splitN2, hcut]
  simp [hf]

theorem GetBearerToken_form (r : Request) (c : String) (hc : c ≠ "")
    (h : GetBearerToken r = c) :
    ∃ scheme, r.HeaderGet "Authorization" = scheme ++ " " ++ c ∧
      EqualFold scheme "Bearer" = true := by
  unfold GetBearerToken at h
  by_cases he : r.HeaderGet "Authorization" = ""
  · simp [he] at h
    exact absurd h.symm hc
  · simp only [if_neg he, splitN2] at h
    cases hcut : cutAt ' ' (r.HeaderGet "Authorization").data with
    | none =>
      simp [hcut] at h
      exact absurd h.symm hc
    | some p =>
      obtain ⟨before, after⟩ := p
      simp only [hcut] at h
      by_cases hf : EqualFold (String.mk before) "Bearer" = true
      · simp only [hf, if_true] at h
        refine ⟨String.mk before, ?_, hf⟩
        obtain ⟨hl, _⟩ := cutAt_some ' ' _ _ _ hcut
        apply String.ext
        rw [hl, ← h]
        simp [String.data_append]
      · simp [hf] at h
        exact absurd h.symm hc

/-- C6 (as stated, refuted): for the header `Bearer a b` the code returns the credential
`a b`, which is non-empty and contains a further delimiter, so it is not true that a
non-empty credential is returned only when no further delimiter follows. -/
theorem GetBearerToken_keeps_further_delimiters :
    GetBearerToken (withAuthorization "Bearer a b") = "a b" ∧
    ¬ (∀ (r : Request) (c : String), c ≠ "" →
        (GetBearerToken r = c ↔
          ∃ scheme, r.HeaderGet "Authorization" = scheme ++ " " ++ c ∧
            EqualFold scheme "Bearer" = true ∧ ' ' ∉ c.data)) := by
  have hv : GetBearerToken (withAuthorization "Bearer a b") = "a b" := by decide
  refine ⟨hv, ?_⟩
  intro hall
  obtain ⟨_, _, _, hns⟩ :=
    (hall (withAuthorization "Bearer a b") "a b" (by decide)).1 hv
  exact hns (by decide)

/-- C6 (amended): `GetBearerToken` returns a non-empty credential `c` if and only if the
header value is a scheme that case-insensitively equals `Bearer`, one space, and then `c`,
where `c` is everything after that first space and may itself contain spaces; for every
other header value, an absent header included, it returns the empty string. -/
theorem GetBearerToken_returns_rest_after_scheme (r : Request) :
    (∀ c, c ≠ "" →
      (GetBearerToken r = c ↔
        ∃ scheme, r.HeaderGet "Authorization" = scheme ++ " " ++ c ∧
          EqualFold scheme "Bearer" = true)) ∧
    (GetBearerToken r = "" ↔
      ¬ ∃ scheme c, c ≠ "" ∧ r.HeaderGet "Authorization" = scheme ++ " " ++ c ∧
        EqualFold scheme "Bearer" = true) ∧
    (r.Header.lookup "Authorization" = none → GetBearerToken r = "") := by
  refine ⟨?_, ?_, ?_⟩
  · intro c hc
    constructor
    · exact GetBearerToken_form r c hc
    · rintro ⟨scheme, hh, hf⟩
      exact GetBearerToken_of_form r scheme c hh hf
  · constructor
    · rintro h ⟨scheme, c, hc, hh, hf⟩
      rw [GetBearerToken_of_form r scheme c hh hf] at h
      exact hc h
    · intro hno
      by_contra hne
      exact hno ⟨_, GetBearerToken r, hne,
        (GetBearerToken_form r (GetBearerToken r) hne rfl).choose_spec.1,
        (GetBearerToken_form r (GetBearerToken r) hne rfl).choose_spec.2⟩
  · intro hnone
    simp [GetBearerToken, Request.HeaderGet, hnone]

/-- C6 (amended) at concrete headers: a mixed-case scheme is accepted, the credential is
the whole rest of the header, and a missing header gives no credential. -/
theorem GetBearerToken_returns_rest_after_scheme_witness :
    GetBearerToken (withAuthorization "bEARER abc.def") = "abc.def" ∧
    GetBearerToken (withAuthorization "Bearer a b") = "a b" ∧
    GetBearerToken anonymous = "" :=
  ⟨((GetBearerToken_returns_rest_after_scheme (withAuthorization "bEARER abc.def")).1
      "abc.def" (by decide)).2 ⟨"bEARER", by decide, by decide⟩,
   ((GetBearerToken_returns_rest_after_scheme (withAuthorization "Bearer a b")).1
      "a b" (by decide)).2 ⟨"Bearer", by decide, by decide⟩,
   (GetBearerToken_returns_rest_after_scheme anonymous).2.2 rfl⟩

theorem Atoi_examples :
    Atoi "50" = (50, none) ∧ Atoi "+7" = (7, none) ∧ Atoi "-3" = (-3, none) ∧
    Atoi "0" = (0, none) ∧ Atoi "101" = (101, none) ∧
    Atoi "" = (0, some NumError.ErrSyntax) ∧ Atoi "abc" = (0, some NumError.ErrSyntax) ∧
    Atoi "12x" = (0, some NumError.ErrSyntax) ∧ Atoi "-" = (0, some NumError.ErrSyntax) ∧
    Atoi "1_000" = (0, some NumError.ErrSyntax) ∧ Atoi " 5" = (0, some NumError.ErrSyntax) ∧
    Atoi "9223372036854775807" = (maxInt, none) ∧
    Atoi "9223372036854775808" = (maxInt, some NumError.ErrRange) ∧
    Atoi "-9223372036854775808" = (minInt, none) ∧
    Atoi "-9223372036854775809" = (minInt, some NumError.ErrRange) ∧
    Atoi "99999999999999999999" = (maxInt, some NumError.ErrRange) ∧
    Atoi "99999999999999999999x" = (maxInt, some NumError.ErrRange) ∧
    Atoi "-99999999999999999999x" = (minInt, some NumError.ErrRange) ∧
    Atoi "18446744073709551615x" = (0, some NumError.ErrSyntax) ∧
    Atoi "18446744073709551616x" = (maxInt, some NumError.ErrRange) ∧
    Atoi "9223372036854775808x" = (0, some NumError.ErrSyntax) ∧
    Atoi "x99999999999999999999" = (0, some NumError.ErrSyntax) := by
  repeat' constructor

theorem parseUintLoop_syntax_zero (digits : List Char) (n : Nat)
    (h : (parseUintLoop digits n).2 = some NumError.ErrSyntax) :
    (parseUintLoop digits n).1 = 0 := by
  induction digits generalizing n with
  | nil => simp [parseUintLoop] at h
  | cons ch rest ih =>
    simp only [parseUintLoop] at h ⊢
    cases hd : digitValue ch with
    | none => rfl
    | some d =>
      simp only [hd] at h ⊢
      split_ifs at h ⊢
      · simp at h
      · simp at h
      · exact ih _ h

theorem signedOfUint_syntax_zero (neg : Bool) (parsed : Nat × Option NumError)
    (h : (signedOfUint neg parsed).2 = some NumError.ErrSyntax) :
    (signedOfUint neg parsed).1 = 0 := by
  unfold signedOfUint at h ⊢
  by_cases h0 : parsed.2 = some NumError.ErrSyntax
  · rw [if_pos h0]
  · rw [if_neg h0] at h
    by_cases h1 : neg = false ∧ parsed.1 ≥ 9223372036854775808
    · rw [if_pos h1] at h; simp at h
    · rw [if_neg h1] at h
      by_cases h2 : neg = true ∧ parsed.1 > 9223372036854775808
      · rw [if_pos h2] at h; simp at h
      · rw [if_neg h2] at h; simp at h

theorem ParseInt_syntax_zero (s : List Char)
    (h : (ParseInt s).2 = some NumError.ErrSyntax) : (ParseInt s).1 = 0 := by
  cases s with
  | nil => rfl
  | cons ch rest => exact signedOfUint_syntax_zero _ _ h

theorem fastDigits_syntax_zero (neg : Bool) (digits : List Char)
    (h : (fastDigits neg digits).2 = some NumError.ErrSyntax) :
    (fastDigits neg digits).1 = 0 := by
  cases digits with
  | nil => rfl
  | cons d ds =>
    simp only [fastDigits] at h ⊢
    cases hp : parseDigits (d :: ds) 0 with
    | none => rfl
    | some n => simp [hp] at h

theorem atoiFast_syntax_zero (s : List Char)
    (h : (atoiFast s).2 = some NumError.ErrSyntax) : (atoiFast s).1 = 0 := by
  cases s with
  | nil => rfl
  | cons ch rest => exact fastDigits_syntax_zero _ _ h

theorem Atoi_syntax_zero (s : String) (h : (Atoi s).2 = some NumError.ErrSyntax) :
    (Atoi s).1 = 0 := by
  unfold Atoi at h ⊢
  simp only at h ⊢
  split_ifs at h ⊢
  · exact atoiFast_syntax_zero _ h
  · exact ParseInt_syntax_zero _ h

theorem digitValue_le (ch : Char) (d : Nat) (h : digitValue ch = some d) : d ≤ 9 := by
  unfold digitValue at h
  split_ifs at h with hc
  · have h2 : ch.toNat ≤ '9'.toNat := hc.2
    have h3 : '9'.toNat = 57 := by decide
    have h4 : '0'.toNat = 48 := by decide
    simp only [Option.some.injEq] at h
    omega

theorem parseDigits_ge (digits : List Char) (n m : Nat)
    (h : parseDigits digits n = some m) : n ≤ m := by
  induction digits generalizing n with
  | nil => simp [parseDigits] at h; omega
  | cons ch rest ih =>
    simp only [parseDigits] at h
    cases hd : digitValue ch with
    | none => simp [hd] at h
    | some d =>
      simp only [hd] at h
      have := ih _ h
      omega

theorem parseDigits_lt (digits : List Char) (n m : Nat)
    (h : parseDigits digits n = some m) : m < (n + 1) * 10 ^ digits.length := by
  induction digits generalizing n with
  | nil => simp [parseDigits] at h; simp; omega
  | cons ch rest ih =>
    simp only [parseDigits] at h
    cases hd : digitValue ch with
    | none => simp [hd] at h
    | some d =>
      simp only [hd] at h
      have h1 := ih _ h
      have h2 := digitValue_le ch d hd
      have h3 : (n * 10 + d + 1) * 10 ^ rest.length ≤ (n + 1) * 10 * 10 ^ rest.length :=
        Nat.mul_le_mul_right _ (by omega)
      rw [List.length_cons, Nat.pow_succ, Nat.mul_comm (10 ^ rest.length) 10, ← Nat.mul_assoc]
      omega

theorem parseUintLoop_exact (digits : List Char) (n m : Nat)
    (h : parseDigits digits n = some m) (hm : m ≤ maxUint64) :
    parseUintLoop digits n = (m, none) := by
  induction digits generalizing n with
  | nil => simp [parseDigits] at h; simp [parseUintLoop, h]
  | cons ch rest ih =>
    simp only [parseDigits] at h
    cases hd : digitValue ch with
    | none => simp [hd] at h
    | some d =>
      simp only [hd] at h
      have h1 := parseDigits_ge _ _ _ h
      have h2 := digitValue_le ch d hd
      simp only [maxUint64] at hm
      have hc : ¬ n ≥ maxUint64 / 10 + 1 := by simp only [maxUint64]; omega
      have e1 : (n * 10) % 18446744073709551616 = n * 10 := by omega
      have e2 : (n * 10 + d) % 18446744073709551616 = n * 10 + d := by omega
      have hc2 : ¬ (n * 10 + d < n * 10 ∨ n * 10 + d > maxUint64) := by
        simp only [maxUint64]; omega
      simp only [parseUintLoop, hd, if_neg hc, e1, e2, if_neg hc2]
      exact ih _ h

theorem parseUintLoop_overflow (digits : List Char) (n m : Nat)
    (h : parseDigits digits n = some m) (hm : m > maxUint64) (hn : n ≤ maxUint64) :
    parseUintLoop digits n = (maxUint64, some NumError.ErrRange) := by
  induction digits generalizing n with
  | nil => simp [parseDigits] at h; omega
  | cons ch rest ih =>
    simp only [parseDigits] at h
    cases hd : digitValue ch with
    | none => simp [hd] at h
    | some d =>
      simp only [hd] at h
      have h2 := digitValue_le ch d hd
      simp only [parseUintLoop, hd]
      by_cases hc : n ≥ maxUint64 / 10 + 1
      · rw [if_pos hc]
      · rw [if_neg hc]
        simp only [maxUint64] at hc hn
        have e1 : (n * 10) % 18446744073709551616 = n * 10 := by omega
        simp only [e1]
        by_cases hc2 : (n * 10 + d) % 18446744073709551616 < n * 10 ∨
            (n * 10 + d) % 18446744073709551616 > maxUint64
        · rw [if_pos hc2]
        · rw [if_neg hc2]
          simp only [maxUint64] at hc2
          have e2 : (n * 10 + d) % 18446744073709551616 = n * 10 + d := by omega
          rw [e2]
          exact ih _ h (by simp only [maxUint64]; omega)

theorem parseUintLoop_error (digits : List Char) (n : Nat)
    (h : parseDigits digits n = none) :
    parseUintLoop digits n = (0, some NumError.ErrSyntax) ∨
    parseUintLoop digits n = (maxUint64, some NumError.ErrRange) := by
  induction digits generalizing n with
  | nil => simp [parseDigits] at h
  | cons ch rest ih =>
    simp only [parseDigits] at h
    simp only [parseUintLoop]
    cases hd : digitValue ch with
    | none => exact Or.inl rfl
    | some d =>
      simp only [hd] at h ⊢
      have h2 := digitValue_le ch d hd
      by_cases hc : n ≥ maxUint64 / 10 + 1
      · rw [if_pos hc]; exact Or.inr rfl
      · rw [if_neg hc]
        simp only [maxUint64] at hc
        have e1 : (n * 10) % 18446744073709551616 = n * 10 := by omega
        simp only [e1]
        by_cases hc2 : (n * 10 + d) % 18446744073709551616 < n * 10 ∨
            (n * 10 + d) % 18446744073709551616 > maxUint64
        · rw [if_pos hc2]; exact Or.inr rfl
        · rw [if_neg hc2]
          simp only [maxUint64] at hc2
          have e2 : (n * 10 + d) % 18446744073709551616 = n * 10 + d := by omega
          rw [e2]
          exact ih _ h

theorem signedOfUint_of_value (neg : Bool) (digits : List Char) (m : Nat)
    (h : unsignedValue digits = some m) :
    signedOfUint neg (ParseUint digits) = clampInt (if neg then -(m : Int) else (m : Int)) := by
  cases digits with
  | nil => simp [unsignedValue] at h
  | cons d ds =>
    simp only [unsignedValue] at h
    simp only [ParseUint]
    by_cases hm : m ≤ maxUint64
    · rw [parseUintLoop_exact _ _ _ h hm]
      cases neg <;>
      · simp only [signedOfUint, clampInt, maxInt, minInt]
        split_ifs <;> first | rfl | (exfalso; simp_all; try omega)
    · have hm' : m > maxUint64 := by omega
      rw [parseUintLoop_overflow _ _ _ h hm' (by simp [maxUint64])]
      simp only [maxUint64] at hm'
      cases neg <;>
      · simp only [signedOfUint, clampInt, maxInt, minInt, maxUint64]
        split_ifs <;> first | rfl | (exfalso; simp_all; try omega)

theorem signedOfUint_of_no_value (neg : Bool) (digits : List Char)
    (h : unsignedValue digits = none) :
    signedOfUint neg (ParseUint digits) = (0, some NumError.ErrSyntax) ∨
    signedOfUint neg (ParseUint digits) = (maxInt, some NumError.ErrRange) ∨
    signedOfUint neg (ParseUint digits) = (minInt, some NumError.ErrRange) := by
  cases digits with
  | nil => exact Or.inl rfl
  | cons d ds =>
    simp only [unsignedValue] at h
    simp only [ParseUint]
    rcases parseUintLoop_error _ _ h with e | e
    · rw [e]; exact Or.inl rfl
    · rw [e]
      cases neg
      · exact Or.inr (Or.inl (by decide))
      · exact Or.inr (Or.inr (by decide))

theorem ParseInt_of_numeral (s : List Char) (v : Int) (h : numeralValue s = some v) :
    ParseInt s = clampInt v := by
  cases s with
  | nil => simp [numeralValue] at h
  | cons ch rest =>
    simp only [numeralValue] at h
    simp only [ParseInt]
    by_cases hm : ch = '-'
    · subst hm
      simp only [if_true] at h
      cases hu : unsignedValue rest with
      | none => simp [hu] at h
      | some m =>
        simp only [hu, Option.some.injEq] at h
        subst h
        simpa using signedOfUint_of_value true rest m hu
    · simp only [if_neg hm] at h
      by_cases hp : ch = '+'
      · subst hp
        simp only [if_true] at h
        cases hu : unsignedValue rest with
        | none => simp [hu] at h
        | some m =>
          simp only [hu, Option.some.injEq] at h
          subst h
          simpa using signedOfUint_of_value false rest m hu
      · simp only [if_neg hp] at h
        cases hu : unsignedValue (ch :: rest) with
        | none => simp [hu] at h
        | some m =>
          simp only [hu, Option.some.injEq] at h
          subst h
          simpa [hm, hp] using signedOfUint_of_value false (ch :: rest) m hu

theorem ParseInt_of_non_numeral (s : List Char) (h : numeralValue s = none) :
    ParseInt s = (0, some NumError.ErrSyntax) ∨
    ParseInt s = (maxInt, some NumError.ErrRange) ∨
    ParseInt s = (minInt, some NumError.ErrRange) := by
  cases s with
  | nil => exact Or.inl rfl
  | cons ch rest =>
    simp only [numeralValue] at h
    simp only [ParseInt]
    by_cases hm : ch = '-'
    · subst hm
      simp only [if_true] at h
      cases hu : unsignedValue rest with
      | some m => simp [hu] at h
      | none => simpa using signedOfUint_of_no_value true rest hu
    · simp only [if_neg hm] at h
      by_cases hp : ch = '+'
      · subst hp
        simp only [if_true] at h
        cases hu : unsignedValue rest with
        | some m => simp [hu] at h
        | none => simpa using signedOfUint_of_no_value false rest hu
      · simp only [if_neg hp] at h
        cases hu : unsignedValue (ch :: rest) with
        | some m => simp [hu] at h
        | none => simpa [hm, hp] using signedOfUint_of_no_value false (ch :: rest) hu

theorem fastDigits_of_value (neg : Bool) (digits : List Char) (m : Nat)
    (h : unsignedValue digits = some m) :
    fastDigits neg digits = (if neg then -(m : Int) else (m : Int), none) := by
  cases digits with
  | nil => simp [unsignedValue] at h
  | cons d ds =>
    simp only [unsignedValue] at h
    simp only [fastDigits, h]

theorem fastDigits_of_no_value (neg : Bool) (digits : List Char)
    (h : unsignedValue digits = none) :
    fastDigits neg digits = (0, some NumError.ErrSyntax) := by
  cases digits with
  | nil => rfl
  | cons d ds =>
    simp only [unsignedValue] at h
    simp only [fastDigits, h]

theorem atoiFast_of_numeral (s : List Char) (v : Int) (h : numeralValue s = some v) :
    atoiFast s = (v, none) := by
  cases s with
  | nil => simp [numeralValue] at h
  | cons ch rest =>
    simp only [numeralValue] at h
    simp only [atoiFast]
    by_cases hm : ch = '-'
    · subst hm
      simp only [if_true] at h
      cases hu : unsignedValue rest with
      | none => simp [hu] at h
      | some m =>
        simp only [hu, Option.some.injEq] at h
        subst h
        simpa using fastDigits_of_value true rest m hu
    · simp only [if_neg hm] at h
      by_cases hp : ch = '+'
      · subst hp
        simp only [if_true] at h
        cases hu : unsignedValue rest with
        | none => simp [hu] at h
        | some m =>
          simp only [hu, Option.some.injEq] at h
          subst h
          simpa using fastDigits_of_value false rest m hu
      · simp only [if_neg hp] at h
        cases hu : unsignedValue (ch :: rest) with
        | none => simp [hu] at h
        | some m =>
          simp only [hu, Option.some.injEq] at h
          subst h
          simpa [hm, hp] using fastDigits_of_value false (ch :: rest) m hu

theorem atoiFast_of_non_numeral (s : List Char) (h : numeralValue s = none) :
    atoiFast s = (0, some NumError.ErrSyntax) := by
  cases s with
  | nil => rfl
  | cons ch rest =>
    simp only [numeralValue] at h
    simp only [atoiFast]
    by_cases hm : ch = '-'
    · subst hm
      simp only [if_true] at h
      cases hu : unsignedValue rest with
      | some m => simp [hu] at h
      | none => simpa using fastDigits_of_no_value true rest hu
    · simp only [if_neg hm] at h
      by_cases hp : ch = '+'
      · subst hp
        simp only [if_true] at h
        cases hu : unsignedValue rest with
        | some m => simp [hu] at h
        | none => simpa using fastDigits_of_no_value false rest hu
      · simp only [if_neg hp] at h
        cases hu : unsignedValue (ch :: rest) with
        | some m => simp [hu] at h
        | none => simpa [hm, hp] using fastDigits_of_no_value false (ch :: rest) hu

theorem unsignedValue_lt (digits : List Char) (m : Nat) (h : unsignedValue digits = some m)
    (hl : digits.length ≤ 18) : m < 1000000000000000000 := by
  cases digits with
  | nil => simp [unsignedValue] at h
  | cons d ds =>
    simp only [unsignedValue] at h
    have h1 := parseDigits_lt _ _ _ h
    have h2 : 10 ^ (d :: ds).length ≤ 10 ^ 18 := Nat.pow_le_pow_right (by decide) hl
    have h3 : (10 : Nat) ^ 18 = 1000000000000000000 := by norm_num
    omega

theorem numeralValue_fits (s : List Char) (v : Int) (h : numeralValue s = some v)
    (hl : s.length ≤ 18) : minInt ≤ v ∧ v ≤ maxInt := by
  cases s with
  | nil => simp [numeralValue] at h
  | cons ch rest =>
    simp only [numeralValue] at h
    simp only [List.length_cons] at hl
    simp only [minInt, maxInt]
    by_cases hm : ch = '-'
    · simp only [if_pos hm] at h
      cases hu : unsignedValue rest with
      | none => simp [hu] at h
      | some m =>
        simp only [hu, Option.some.injEq] at h
        have := unsignedValue_lt rest m hu (by omega)
        omega
    · simp only [if_neg hm] at h
      by_cases hp : ch = '+'
      · simp only [if_pos hp] at h
        cases hu : unsignedValue rest with
        | none => simp [hu] at h
        | some m =>
          simp only [hu, Option.some.injEq] at h
          have := unsignedValue_lt rest m hu (by omega)
          omega
      · simp only [if_neg hp] at h
        cases hu : unsignedValue (ch :: rest) with
        | none => simp [hu] at h
        | some m =>
          simp only [hu, Option.some.injEq] at h
          have := unsignedValue_lt (ch :: rest) m hu (by simp; omega)
          omega

theorem length_le_utf8ByteSize (cs : List Char) : cs.length ≤ String.utf8ByteSize.go cs := by
  induction cs with
  | nil => simp [String.utf8ByteSize.go]
  | cons c cs ih =>
    have := Char.utf8Size_pos c
    simp only [String.utf8ByteSize.go, List.length_cons]
    omega

/-- On a decimal numeral, `Atoi` returns the denoted integer when it fits a Go `int`, and
the nearest bound with a range error when it does not. -/
theorem Atoi_of_numeral (s : String) (v : Int) (h : numeralValue s.data = some v) :
    Atoi s = clampInt v := by
  unfold Atoi
  simp only
  split_ifs with hlen
  · have hl : s.data.length ≤ 18 := by
      have := length_le_utf8ByteSize s.data
      have e : s.utf8ByteSize = String.utf8ByteSize.go s.data := rfl
      omega
    obtain ⟨h1, h2⟩ := numeralValue_fits s.data v h hl
    rw [atoiFast_of_numeral s.data v h]
    simp only [clampInt]
    rw [if_neg (by omega), if_neg (by omega)]
  · exact ParseInt_of_numeral s.data v h

/-- On a string that is not a decimal numeral, `Atoi` returns an error: a syntax error with
value 0, or, when a digit prefix already overflows, a range error with a bound. -/
theorem Atoi_of_non_numeral (s : String) (h : numeralValue s.data = none) :
    Atoi s = (0, some NumError.ErrSyntax) ∨
    Atoi s = (maxInt, some NumError.ErrRange) ∨
    Atoi s = (minInt, some NumError.ErrRange) := by
  unfold Atoi
  simp only
  split_ifs with hlen
  · exact Or.inl (atoiFast_of_non_numeral s.data h)
  · exact ParseInt_of_non_numeral s.data h

theorem effectiveLimit_eq (raw : String) :
    effectiveLimit raw =
      if 1 ≤ (Atoi raw).1 ∧ (Atoi raw).1 ≤ 100 then (Atoi raw).1 else 20 := by
  unfold effectiveLimit
  by_cases h : (Atoi raw).1 ≤ 0 ∨ (Atoi raw).1 > 100
  · have h' : ¬ (1 ≤ (Atoi raw).1 ∧ (Atoi raw).1 ≤ 100) := by omega
    simp only [if_pos h, if_neg h']
  · have h' : 1 ≤ (Atoi raw).1 ∧ (Atoi raw).1 ≤ 100 := by omega
    simp only [if_neg h, if_pos h']

theorem effectiveLimit_bounds (raw : String) :
    0 < effectiveLimit raw ∧ effectiveLimit raw ≤ 100 := by
  rw [effectiveLimit_eq]
  split <;> omega

theorem effectiveOffset_eq (raw : String) :
    effectiveOffset raw = if 0 ≤ (Atoi raw).1 then (Atoi raw).1 else 0 := by
  unfold effectiveOffset
  by_cases h : (Atoi raw).1 < 0
  · have h' : ¬ 0 ≤ (Atoi raw).1 := by omega
    simp only [if_pos h, if_neg h']
  · have h' : 0 ≤ (Atoi raw).1 := by omega
    simp only [if_neg h, if_pos h']

theorem effectiveOffset_nonneg (raw : String) : 0 ≤ effectiveOffset raw := by
  rw [effectiveOffset_eq]
  split <;> omega

theorem Atoi_range_bound (s : String) (h : (Atoi s).2 = some NumError.ErrRange) :
    (Atoi s).1 = maxInt ∨ (Atoi s).1 = minInt := by
  cases hv : numeralValue s.data with
  | none =>
    rcases Atoi_of_non_numeral s hv with e | e | e
    · rw [e] at h; simp at h
    · rw [e]; exact Or.inl rfl
    · rw [e]; exact Or.inr rfl
  | some v =>
    rw [Atoi_of_numeral s v hv] at h ⊢
    unfold clampInt at h ⊢
    split_ifs at h ⊢
    · exact Or.inl rfl
    · exact Or.inr rfl

theorem effectiveLimit_of_numeral (raw : String) (v : Int)
    (h : numeralValue raw.data = some v) :
    effectiveLimit raw = if 1 ≤ v ∧ v ≤ 100 then v else 20 := by
  rw [effectiveLimit_eq, Atoi_of_numeral raw v h]
  simp only [clampInt, maxInt, minInt]
  split_ifs <;> first | rfl | omega

theorem effectiveLimit_of_non_numeral (raw : String) (h : numeralValue raw.data = none) :
    effectiveLimit raw = 20 := by
  rw [effectiveLimit_eq]
  rcases Atoi_of_non_numeral raw h with e | e | e <;> rw [e] <;> decide

theorem effectiveOffset_of_numeral (raw : String) (v : Int)
    (h : numeralValue raw.data = some v) :
    effectiveOffset raw = if v < 0 then 0 else if v > maxInt then maxInt else v := by
  rw [effectiveOffset_eq, Atoi_of_numeral raw v h]
  simp only [clampInt, maxInt, minInt]
  split_ifs <;> first | rfl | omega

theorem effectiveOffset_of_non_numeral (raw : String) (h : numeralValue raw.data = none) :
    effectiveOffset raw = 0 ∨
    (effectiveOffset raw = maxInt ∧ (Atoi raw).2 = some NumError.ErrRange) := by
  rw [effectiveOffset_eq]
  rcases Atoi_of_non_numeral raw h with e | e | e <;> rw [e]
  · exact Or.inl (by decide)
  · exact Or.inr ⟨by decide, rfl⟩
  · exact Or.inl (by decide)

theorem listStmt_args_end (limit offset : Int) (category : String) :
    ∃ pre, (listStmt limit offset category).args = pre ++ [SqlArg.int limit, SqlArg.int offset] := by
  by_cases h : category = ""
  · subst h; rw [listStmt_unfiltered]; exact ⟨[], rfl⟩
  · rw [listStmt_filtered limit offset category h]; exact ⟨[SqlArg.str category], rfl⟩

theorem ListProducts_handler_failed (db : DB) (c : Conn) (r : Request)
    (products : Option (List Product)) (err : String)
    (h : Store.ListProducts db (effectiveLimit (r.QueryGet "limit"))
      (effectiveOffset (r.QueryGet "offset")) (r.QueryGet "category") = (products, some err)) :
    Handler.ListProducts db c r =
      { w := httpError c.w "internal error" 500,
        log := c.log ++ [LogLine.error ("ListProducts: " ++ err)] } := by
  simp [Handler.ListProducts, h, Conn.Errorf]

theorem ListProducts_handler_listed (db : DB) (c : Conn) (r : Request)
    (products : Option (List Product))
    (h : Store.ListProducts db (effectiveLimit (r.QueryGet "limit"))
      (effectiveOffset (r.QueryGet "offset")) (r.QueryGet "category") = (products, none)) :
    ∃ total, (Handler.ListProducts db c r).w =
      (c.w.HeaderSet "Content-Type" "application/json").Write
        (Chunk.productList
          { Products := products, Total := total,
            Limit := effectiveLimit (r.QueryGet "limit"),
            Offset := effectiveOffset (r.QueryGet "offset") }) := by
  cases hc : Store.CountProducts db (r.QueryGet "category") with
  | mk total cerr =>
    cases cerr with
    | none => exact ⟨total, by simp [Handler.ListProducts, h, hc]⟩
    | some err => exact ⟨lenProducts products, by simp [Handler.ListProducts, h, hc, Conn.Errorf]⟩

/-- C11: for every raw `limit` and `offset` parameter of a list request, the limit handed
to the repository and echoed in the response is the parsed limit (the value `strconv.Atoi`
returns, its error dropped) when it lies in 1..100 and 20 otherwise (zero, negative, above
100, missing or non-numeric), and the offset is the parsed offset when it is not negative
and 0 otherwise; so the effective limit lies in (0, 100] and the effective offset is at
least 0. A parameter that is a decimal numeral is parsed to the integer it denotes, or to
the nearest `int` bound when that does not fit; any other parameter is parsed to 0, or to
a bound when a digit prefix already overflows. -/
theorem ListProducts_clamps_limit_and_offset (db : DB) (c : Conn) (r : Request) :
    effectiveLimit (r.QueryGet "limit") =
      (if 1 ≤ (Atoi (r.QueryGet "limit")).1 ∧ (Atoi (r.QueryGet "limit")).1 ≤ 100
        then (Atoi (r.QueryGet "limit")).1 else 20) ∧
    effectiveOffset (r.QueryGet "offset") =
      (if 0 ≤ (Atoi (r.QueryGet "offset")).1 then (Atoi (r.QueryGet "offset")).1 else 0) ∧
    (0 < effectiveLimit (r.QueryGet "limit") ∧ effectiveLimit (r.QueryGet "limit") ≤ 100) ∧
    0 ≤ effectiveOffset (r.QueryGet "offset") ∧
    (r.Query.lookup "limit" = none → effectiveLimit (r.QueryGet "limit") = 20) ∧
    (r.Query.lookup "offset" = none → effectiveOffset (r.QueryGet "offset") = 0) ∧
    ((Atoi (r.QueryGet "limit")).2 = some NumError.ErrSyntax →
      effectiveLimit (r.QueryGet "limit") = 20) ∧
    ((Atoi (r.QueryGet "offset")).2 = some NumError.ErrSyntax →
      effectiveOffset (r.QueryGet "offset") = 0) ∧
    (∃ pre, (listStmt (effectiveLimit (r.QueryGet "limit"))
        (effectiveOffset (r.QueryGet "offset")) (r.QueryGet "category")).args =
      pre ++ [SqlArg.int (effectiveLimit (r.QueryGet "limit")),
        SqlArg.int (effectiveOffset (r.QueryGet "offset"))]) ∧
    (∀ products err,
      Store.ListProducts db (effectiveLimit (r.QueryGet "limit"))
        (effectiveOffset (r.QueryGet "offset")) (r.QueryGet "category") = (products, some err) →
      (Handler.ListProducts db c r).w = httpError c.w "internal error" 500) ∧
    (∀ products,
      Store.ListProducts db (effectiveLimit (r.QueryGet "limit"))
        (effectiveOffset (r.QueryGet "offset")) (r.QueryGet "category") = (products, none) →
      ∃ total, (Handler.ListProducts db c r).w =
        (c.w.HeaderSet "Content-Type" "application/json").Write
          (Chunk.productList
            { Products := products, Total := total,
              Limit := effectiveLimit (r.QueryGet "limit"),
              Offset := effectiveOffset (r.QueryGet "offset") })) ∧
    (∀ v, numeralValue (r.QueryGet "limit").data = some v →
      Atoi (r.QueryGet "limit") = clampInt v ∧
      effectiveLimit (r.QueryGet "limit") = (if 1 ≤ v ∧ v ≤ 100 then v else 20)) ∧
    (numeralValue (r.QueryGet "limit").data = none →
      effectiveLimit (r.QueryGet "limit") = 20) ∧
    (∀ v, numeralValue (r.QueryGet "offset").data = some v →
      Atoi (r.QueryGet "offset") = clampInt v ∧
      effectiveOffset (r.QueryGet "offset") =
        (if v < 0 then 0 else if v > maxInt then maxInt else v)) ∧
    (numeralValue (r.QueryGet "offset").data = none →
      effectiveOffset (r.QueryGet "offset") = 0 ∨
      (effectiveOffset (r.QueryGet "offset") = maxInt ∧
        (Atoi (r.QueryGet "offset")).2 = some NumError.ErrRange)) ∧
    ((Atoi (r.QueryGet "limit")).2 = some NumError.ErrRange →
      effectiveLimit (r.QueryGet "limit") = 20) := by
  refine ⟨effectiveLimit_eq _, effectiveOffset_eq _, effectiveLimit_bounds _,
    effectiveOffset_nonneg _, ?_, ?_, ?_, ?_, listStmt_args_end _ _ _, ?_, ?_, ?_,
    effectiveLimit_of_non_numeral _, ?_, effectiveOffset_of_non_numeral _, ?_⟩
  · intro h
    have hq : r.QueryGet "limit" = "" := by simp [Request.QueryGet, h]
    rw [hq]; decide
  · intro h
    have hq : r.QueryGet "offset" = "" := by simp [Request.QueryGet, h]
    rw [hq]; decide
  · intro h
    rw [effectiveLimit_eq, Atoi_syntax_zero _ h]; decide
  · intro h
    rw [effectiveOffset_eq, Atoi_syntax_zero _ h]; decide
  · intro products err h
    rw [ListProducts_handler_failed db c r products err h]
  · intro products h
    exact ListProducts_handler_listed db c r products h
  · intro v h
    exact ⟨Atoi_of_numeral _ v h, effectiveLimit_of_numeral _ v h⟩
  · intro v h
    exact ⟨Atoi_of_numeral _ v h, effectiveOffset_of_numeral _ v h⟩
  · intro h
    rw [effectiveLimit_eq]
    rcases Atoi_range_bound _ h with e | e <;> rw [e] <;> decide

/-- C11 at concrete parameters: `limit=250&offset=-3` is served with limit 20 and offset 0,
`limit=50&offset=40` as given, a request without parameters and `limit=abc` with limit 20,
and `offset=99999999999999999999x`, whose digit prefix overflows before the `x` is read,
with the largest `int` as offset. -/
theorem ListProducts_clamps_limit_and_offset_witness :
    effectiveLimit ((listRequest "250" "-3").QueryGet "limit") = 20 ∧
    effectiveOffset ((listRequest "250" "-3").QueryGet "offset") = 0 ∧
    effectiveLimit ((listRequest "50" "40").QueryGet "limit") = 50 ∧
    effectiveOffset ((listRequest "50" "40").QueryGet "offset") = 40 ∧
    effectiveLimit (anonymous.QueryGet "limit") = 20 ∧
    effectiveLimit ((listRequest "abc" "").QueryGet "limit") = 20 ∧
    effectiveOffset ((listRequest "20" "99999999999999999999x").QueryGet "offset")
      = 9223372036854775807 ∧
    effectiveLimit ((listRequest "99999999999999999999x" "0").QueryGet "limit") = 20 :=
  ⟨(ListProducts_clamps_limit_and_offset emptyStore fresh (listRequest "250" "-3")).1.trans
      (by decide),
   (ListProducts_clamps_limit_and_offset emptyStore fresh (listRequest "250" "-3")).2.1.trans
      (by decide),
   (ListProducts_clamps_limit_and_offset emptyStore fresh (listRequest "50" "40")).1.trans
      (by decide),
   (ListProducts_clamps_limit_and_offset emptyStore fresh (listRequest "50" "40")).2.1.trans
      (by decide),
   (ListProducts_clamps_limit_and_offset emptyStore fresh anonymous).2.2.2.2.1 rfl,
   (ListProducts_clamps_limit_and_offset emptyStore fresh (listRequest "abc" "")).2.2.2.2.2.2.1
      (by decide),
   (ListProducts_clamps_limit_and_offset emptyStore fresh
      (listRequest "20" "99999999999999999999x")).2.1.trans (by decide),
   (ListProducts_clamps_limit_and_offset emptyStore fresh
      (listRequest "99999999999999999999x" "0")).2.2.2.2.2.2.2.2.2.2.2.2.2.2.2 (by decide)⟩

theorem ListProducts_handler_example :
    (Handler.ListProducts emptyStore fresh (listRequest "250" "-3")).w.body =
      [Chunk.productList { Products := some [], Total := 0, Limit := 20, Offset := 0 }] ∧
    (Handler.ListProducts emptyStore fresh (listRequest "250" "-3")).w.status = some 200 ∧
    (Handler.ListProducts emptyStore fresh (listRequest "7" "99999999999999999999x")).w.body =
      [Chunk.productList
        { Products := some [], Total := 0, Limit := 7, Offset := 9223372036854775807 }] := by
  refine ⟨?_, ?_, ?_⟩ <;> rfl

end ClamCatalog
